import Mathlib

/-! ## libodroid-gps: the USB GPS device registry and matcher (`usbdevice.c`)

A shallow embedding of `usbdevice.c`.  The file-scope variables of the C file
(`devices`, `nr_devices`, `last`, `__default_device`, `__default_baudrate`) are the
fields of `State`; every C function becomes a function on `State`.

Memory is modelled explicitly where the C code depends on it:

* the pool pointer `devices` is `PoolPtr`: `NULL`, a live block of slots, or a pointer
  to a block that has been passed to `free` (dangling);
* a block is the list of its slots, a slot being `none` (a `NULL` entry) or
  `some dev` (a pointer to a heap record);
* an access outside a live block (a read or write past its last slot, through `NULL`
  or through a dangling pointer) is undefined behaviour in C; the embedding returns
  `none` for it, so `some _` always means "the C code has a defined result".

`malloc` and `strdup` fail exactly when `State.heap_exhausted` is set; the flag is part
of the environment and no function changes it.

`int` values that the code keeps non-negative (`nr_devices`, `last`) are `Nat`;
`uint16_t` conversion is an explicit `% 65536`.
-/

namespace OdroidGps

/-! ## Constants of the C library headers -/

/-- The value of `EINVAL` in `errno.h`. -/
def EINVAL : Int := 22

/-- The value of `ENOMEM` in `errno.h`. -/
def ENOMEM : Int := 12

/-- The value of `B2400` in `termios.h` (octal 13). -/
def B2400 : Nat := 11

/-- The value of `B4800` in `termios.h` (octal 14). -/
def B4800 : Nat := 12

/-- The value of `B9600` in `termios.h` (octal 15). -/
def B9600 : Nat := 13

/-- The value of `XML_ELEMENT_NODE` in libxml2's `xmlElementType`. -/
def XML_ELEMENT_NODE : Nat := 1

/-! ## Data model -/

/-- The record `struct gpsdevice`; `vid` and `pid` are `uint16_t`, `baudrate` is `speed_t`. -/
structure gpsdevice where
  vid : Nat
  pid : Nat
  baudrate : Nat
deriving DecidableEq, Repr

/-- The value of the file-scope pointer `devices`. -/
inductive PoolPtr where
  | null
  | live (slots : List (Option gpsdevice))
  | freed
deriving DecidableEq, Repr

/-- The file-scope variables of `usbdevice.c`, and the allocator's state. -/
structure State where
  devices : PoolPtr
  nr_devices : Nat
  last : Nat
  __default_device : Option String
  __default_baudrate : Nat
  heap_exhausted : Bool
deriving DecidableEq, Repr

/-- The state at process start: the initialisers of the file-scope variables. -/
def initState : State :=
  { devices := PoolPtr.null, nr_devices := 0, last := 0,
    __default_device := none, __default_baudrate := B9600, heap_exhausted := false }

/-- A libxml2 node as the code sees it: `NULL`, or a node with its `type`, `name`,
attributes, and the `children` and `next` pointers. -/
inductive xmlNode where
  | null
  | node (type : Nat) (name : String) (properties : List (String × String))
      (children : xmlNode) (next : xmlNode)
deriving DecidableEq, Repr

/-- The libxml2 function `xmlGetProp`: the value of the attribute, `none` for `NULL`. -/
def xmlGetProp (node : xmlNode) (name : String) : Option String :=
  match node with
  | xmlNode.null => none
  | xmlNode.node _ _ props _ _ => props.lookup name

/-- The number of element nodes on a sibling chain. -/
def countElements : xmlNode → Nat
  | xmlNode.null => 0
  | xmlNode.node ty _ _ _ next =>
    (if ty = XML_ELEMENT_NODE then 1 else 0) + countElements next

/-- The libxml2 function `xmlChildElementCount`, cast to `int`. -/
def xmlChildElementCount (node : xmlNode) : Int :=
  match node with
  | xmlNode.null => 0
  | xmlNode.node _ _ _ children _ => (countElements children : Int)

/-! ## `strtol(_, NULL, 16)` and `snprintf("%03d")` -/

/-- The C function `isspace` in the "C" locale. -/
def isspace (c : Char) : Bool :=
  c.toNat == 32 || (9 ≤ c.toNat && c.toNat ≤ 13)

/-- The value of a hexadecimal digit. -/
def hexval (c : Char) : Option Nat :=
  if 48 ≤ c.toNat ∧ c.toNat ≤ 57 then some (c.toNat - 48)
  else if 97 ≤ c.toNat ∧ c.toNat ≤ 102 then some (c.toNat - 87)
  else if 65 ≤ c.toNat ∧ c.toNat ≤ 70 then some (c.toNat - 55)
  else none

/-- Accumulates the longest run of hexadecimal digits. -/
def hexdigits : List Char → Nat → Nat
  | [], acc => acc
  | c :: cs, acc =>
    match hexval c with
    | some d => hexdigits cs (acc * 16 + d)
    | none => acc

/-- Drops leading white space. -/
def skipSpace : List Char → List Char
  | [] => []
  | c :: cs => if isspace c then skipSpace cs else c :: cs

/-- Drops an optional `0x` or `0X`. -/
def skip0x (cs : List Char) : List Char :=
  match cs with
  | c0 :: c1 :: rest => if c0.toNat = 48 ∧ (c1.toNat = 120 ∨ c1.toNat = 88) then rest else cs
  | _ => cs

/-- The value of `LONG_MAX` where `long` has 64 bits. -/
def LONG_MAX : Int := 2 ^ 63 - 1

/-- The C library call `strtol(nptr, NULL, 16)`: white space, an optional sign, an
optional `0x`, then hexadecimal digits; no digits give 0; the result saturates at
`LONG_MAX` and `LONG_MIN`. -/
def strtol16 (nptr : String) : Int :=
  match skipSpace nptr.data with
  | [] => 0
  | c :: cs =>
    if c.toNat = 45 then
      let m : Int := (hexdigits (skip0x cs) 0 : Nat)
      if m > LONG_MAX + 1 then -(LONG_MAX + 1) else -m
    else
      let m : Int := (hexdigits (skip0x (if c.toNat = 43 then cs else c :: cs)) 0 : Nat)
      if m > LONG_MAX then LONG_MAX else m

/-- Conversion of a `long` to `uint16_t`. -/
def toUint16 (x : Int) : Nat := (x % 65536).toNat

/-- The output of `printf("%03d", n)` for a non-negative `n`: the decimal digits, padded
on the left with zeros to at least three characters. -/
def fmt03d (n : Nat) : String :=
  let ds := Nat.toDigits 10 n
  String.mk (List.replicate (3 - ds.length) (Char.ofNat 48) ++ ds)

/-! ## The baud rate table -/

/-- The table `termbits`. -/
def termbits : List (String × Nat) :=
  [("2400", B2400), ("4800", B4800), ("9600", B9600)]

/-- The loop of `__termbits` over the table: the first entry whose string is `str`. -/
def termbitsLoop (str : String) : List (String × Nat) → Option Nat
  | [] => none
  | e :: es => if e.1 = str then some e.2 else termbitsLoop str es

/-- The function `__termbits`: `str` is `none` for `NULL`. -/
def __termbits (str : Option String) (s : State) : Nat :=
  match str with
  | some t =>
    match termbitsLoop t termbits with
    | some b => b
    | none => s.__default_baudrate
  | none => s.__default_baudrate

/-- The loop of `nameof_termbits` over the table. -/
def nameofLoop (baudrate : Nat) : List (String × Nat) → Option String
  | [] => none
  | e :: es => if e.2 = baudrate then some e.1 else nameofLoop baudrate es

/-- The function `nameof_termbits`. -/
def nameof_termbits (baudrate : Nat) : String :=
  match nameofLoop baudrate termbits with
  | some str => str
  | none => "unknown"

/-! ## The registry -/

/-- The loop `for (; *devs; devs++) free(*devs)` of `__device_release_pool`: it stops at
the first `NULL` slot; `none` when it runs past the last slot of the block. -/
def releaseEntries : List (Option gpsdevice) → Option Unit
  | [] => none
  | none :: _ => some ()
  | some _ :: rest => releaseEntries rest

/-- The function `__device_release_pool`, applied to the file-scope `devices` as at both
call sites.  The parameter shadows the file-scope variable, so `devices = NULL` in the
body clears the parameter only: the file-scope pointer is left dangling. -/
def __device_release_pool (s : State) : Option State :=
  match s.devices with
  | PoolPtr.null => some s
  | PoolPtr.freed => none
  | PoolPtr.live slots =>
    match releaseEntries slots with
    | none => none
    | some _ => some { s with devices := PoolPtr.freed, nr_devices := 0, last := 0 }

/-- The function `__device_create_pool`. -/
def __device_create_pool (nr : Int) (s : State) : Option (Int × State) :=
  if 0 ≥ nr then some (-EINVAL, s)
  else
    match __device_release_pool s with
    | none => none
    | some s1 =>
      if s1.heap_exhausted then some (-ENOMEM, { s1 with devices := PoolPtr.null })
      else
        some (0, { s1 with devices := PoolPtr.live (List.replicate (nr.toNat + 1) none),
                           nr_devices := nr.toNat, last := 0 })

/-- The record that `__device_add` fills in: `dev->vid = strtol(vid, NULL, 16)`,
`dev->pid = strtol(pid, NULL, 16)`, `dev->baudrate = __termbits(baudrate)`. -/
def newDevice (vid pid : String) (baudrate : Option String) (s : State) : gpsdevice :=
  { vid := toUint16 (strtol16 vid), pid := toUint16 (strtol16 pid),
    baudrate := __termbits baudrate s }

/-- The function `__device_add`. -/
def __device_add (node : xmlNode) (s : State) : Option (Int × State) :=
  match node with
  | xmlNode.null => some (-EINVAL, s)
  | _ =>
    match xmlGetProp node "vid", xmlGetProp node "pid" with
    | some vid, some pid =>
      if s.heap_exhausted then some (-EINVAL, s)
      else
        let dev := newDevice vid pid (xmlGetProp node "baudrate") s
        match s.devices with
        | PoolPtr.live slots =>
          if s.last < slots.length then
            some (0, { s with devices := PoolPtr.live (slots.set s.last (some dev)),
                              last := s.last + 1 })
          else none
        | _ => none
    | _, _ => some (-EINVAL, s)

/-- The loop of `gps_lookup` over the slots of the pool: `some (some dev)` for the first
slot that matches, `some none` when a `NULL` slot is reached first, `none` when the loop
runs past the last slot of the block. -/
def lookupLoop (vid pid : Nat) : List (Option gpsdevice) → Option (Option gpsdevice)
  | [] => none
  | none :: _ => some none
  | some d :: rest =>
    if d.vid = vid ∧ d.pid = pid then some (some d) else lookupLoop vid pid rest

/-- The function `gps_lookup`; the arguments are `uint16_t` values. -/
def gps_lookup (vid pid : Nat) (s : State) : Option (Option gpsdevice) :=
  match s.devices with
  | PoolPtr.live slots => lookupLoop vid pid slots
  | _ => none

/-! ## The default device and the default baud rate -/

/-- The function `set_default_device`. -/
def set_default_device (device : Option String) (s : State) : Int × State :=
  match device with
  | some d =>
    if s.heap_exhausted then (-ENOMEM, s)
    else (0, { s with __default_device := some d })
  | none => (0, { s with __default_device := none })

/-- The function `set_default_baudrate`. -/
def set_default_baudrate (baudrate : Option String) (s : State) : Int × State :=
  match baudrate with
  | none => (-EINVAL, s)
  | some b => (0, { s with __default_baudrate := __termbits (some b) s })

/-! ## Traversal of the configuration tree -/

/-- The body of `if (curr->type == XML_ELEMENT_NODE)` in `device_traverse_trees`.  The
boolean of the result is `true` when the body leaves the loop with `break`. -/
def visitElement (curr : xmlNode) (s : State) : Option (Bool × State) :=
  match curr with
  | xmlNode.null => some (false, s)
  | xmlNode.node _ name _ _ _ =>
    let s1 :=
      if name = "default" then
        (set_default_baudrate (xmlGetProp curr "baudrate")
          (set_default_device (xmlGetProp curr "device") s).2).2
      else s
    if name = "devices" then
      match __device_create_pool (xmlChildElementCount curr) s1 with
      | none => none
      | some (ret, s2) => some (decide (0 > ret), s2)
    else if name = "usbdev" then
      match __device_add curr s1 with
      | none => none
      | some (_, s2) => some (false, s2)
    else some (false, s1)

/-- The loop `for (; curr; curr = curr->next)` of `device_traverse_trees`.  Each round
runs the element body, then calls `device_traverse_trees(curr->children)`, whose return
value is dropped and whose effect on the state is this loop on the children (none when
`curr->children` is `NULL`), then moves to `curr->next`. -/
def traverseLoop : xmlNode → State → Option State
  | xmlNode.null, s => some s
  | xmlNode.node ty name props children next, s =>
    match (if ty = XML_ELEMENT_NODE then
             visitElement (xmlNode.node ty name props children next) s
           else some (false, s)) with
    | none => none
    | some (true, s1) => some s1
    | some (false, s1) =>
      match traverseLoop children s1 with
      | none => none
      | some s2 => traverseLoop next s2

/-- The function `device_traverse_trees`. -/
def device_traverse_trees (node : xmlNode) (s : State) : Option (Int × State) :=
  match node with
  | xmlNode.null => some (-EINVAL, s)
  | _ =>
    match traverseLoop node s with
    | none => none
    | some s1 => some (0, s1)

/-! ## Matching against the live USB devices -/

/-- A `libusb_device` as the code sees it: the outcome of `libusb_get_device_descriptor`
(`none` for a negative return value, else `idVendor` and `idProduct`), and the values of
`libusb_get_bus_number` and `libusb_get_device_address`. -/
structure libusb_device where
  descriptor : Option (Nat × Nat)
  bus_number : Nat
  device_address : Nat
deriving DecidableEq, Repr

/-- What a call leaves behind for its caller: the return value and the values stored
through `_devname` and `_baudrate` (`none` when nothing was stored, or for `_devname` when
`strdup` returned `NULL`). -/
structure ScanOut where
  ret : Int
  devname : Option String
  baudrate : Option Nat
deriving DecidableEq, Repr

/-- The text that `snprintf(path, sizeof(path), "/dev/bus/usb/%03d/%03d", bus, addr)`
writes. -/
def devicePath (bus addr : Nat) : String :=
  "/dev/bus/usb/" ++ fmt03d bus ++ "/" ++ fmt03d addr

/-- The loop `for (; *dev; dev++)` of `usbdev_lookup`. -/
def usbdevLoop (s : State) : List libusb_device → Option ScanOut
  | [] => some { ret := -EINVAL, devname := none, baudrate := none }
  | dev :: rest =>
    match dev.descriptor with
    | none => usbdevLoop s rest
    | some (idVendor, idProduct) =>
      match gps_lookup idVendor idProduct s with
      | none => none
      | some (some gps) =>
        some { ret := 0,
               devname := if s.heap_exhausted then none
                          else some (devicePath dev.bus_number dev.device_address),
               baudrate := some gps.baudrate }
      | some none => usbdevLoop s rest

/-- The function `usbdev_lookup`; `devnameOut` and `baudrateOut` tell whether `_devname`
and `_baudrate` are non-`NULL`. -/
def usbdev_lookup (devs : List libusb_device) (devnameOut baudrateOut : Bool) (s : State) :
    Option ScanOut :=
  if devnameOut = false ∨ baudrateOut = false then
    some { ret := -EINVAL, devname := none, baudrate := none }
  else usbdevLoop s devs

/-! ## The scan -/

/-- The function `read_usb_gps_list` for the fixed file name.  `doc` is what libxml2
makes of the file: `none` when `xmlReadFile` returns `NULL`, `some xmlNode.null` when the
document has no root element, else the root element. -/
def read_usb_gps_list (doc : Option xmlNode) (s : State) : Option (Int × State) :=
  match doc with
  | none => some (-EINVAL, s)
  | some xmlNode.null => some (-EINVAL, s)
  | some (xmlNode.node ty name props children next) =>
    if name = "odroid-gps" then
      match device_traverse_trees (xmlNode.node ty name props children next) s with
      | none => none
      | some (_, s1) => some ((s1.nr_devices : Int), s1)
    else some ((s.nr_devices : Int), s)

/-- The calls into libusb. -/
inductive UsbCall where
  | init
  | get_device_list
  | free_device_list
  | exit
deriving DecidableEq, Repr

/-- The result of one scan: what the caller receives, the libusb calls made, and the
state left behind. -/
structure ScanResult where
  out : ScanOut
  usb_calls : List UsbCall
  state : State
deriving DecidableEq, Repr

/-- The function `scan_usb_gps_device`.  `doc` is the content of the configuration file
(see `read_usb_gps_list`); `usb` is what `libusb_get_device_list` delivers: `none` for a
negative return value, which leaves `devs` unset so that `libusb_free_device_list(devs, 1)`
is undefined, else the list of devices. -/
def scan_usb_gps_device (doc : Option xmlNode) (usb : Option (List libusb_device))
    (devnameOut baudrateOut : Bool) (s : State) : Option ScanResult :=
  match read_usb_gps_list doc s with
  | none => none
  | some (nr, s1) =>
    let found : Option (ScanOut × List UsbCall) :=
      if 0 < nr then
        match usb with
        | none => none
        | some devs =>
          match (if 0 < (devs.length : Int) then usbdev_lookup devs devnameOut baudrateOut s1
                 else some { ret := -EINVAL, devname := none, baudrate := none }) with
          | none => none
          | some out =>
            some (out, [UsbCall.init, UsbCall.get_device_list, UsbCall.free_device_list,
                        UsbCall.exit])
      else some ({ ret := -EINVAL, devname := none, baudrate := none }, [])
    match found with
    | none => none
    | some (out, calls) =>
      match __device_release_pool s1 with
      | none => none
      | some s2 =>
        some { out := out, usb_calls := calls,
               state := (set_default_device none { s2 with devices := PoolPtr.null }).2 }

/-! ## Properties of the registry -/

/-- A node that is a `usbdev` element with the given attributes and no children. -/
def usbdevElement (props : List (String × String)) (next : xmlNode) : xmlNode :=
  xmlNode.node XML_ELEMENT_NODE "usbdev" props xmlNode.null next

theorem releaseEntries_of_mem_none :
    ∀ slots : List (Option gpsdevice), none ∈ slots → releaseEntries slots = some ()
  | [], h => by simp at h
  | none :: _, _ => rfl
  | some d :: rest, h => by
    have h1 : none ∈ rest := by simpa using h
    simpa [releaseEntries] using releaseEntries_of_mem_none rest h1

/-- The pool pointer is `NULL`, or points to a live block that has a `NULL` slot: the
state in which the loops over `*devs` stop inside the block. -/
def poolTerminated (s : State) : Prop :=
  match s.devices with
  | PoolPtr.null => True
  | PoolPtr.live slots => none ∈ slots
  | PoolPtr.freed => False

/-- The slots of a block that holds the records `ds`, in this order, followed by `room`
unused slots and the terminating slot, all `NULL`. -/
def poolOf (ds : List gpsdevice) (room : Nat) : List (Option gpsdevice) :=
  ds.map some ++ List.replicate (room + 1) none

/-- The record `__device_add` makes of a node, given the state it runs in. -/
def deviceOf (s : State) (node : xmlNode) : gpsdevice :=
  newDevice ((xmlGetProp node "vid").getD "") ((xmlGetProp node "pid").getD "")
    (xmlGetProp node "baudrate") s

/-- The node carries both a `vid` and a `pid` attribute. -/
def hasIds (node : xmlNode) : Prop :=
  (xmlGetProp node "vid").isSome = true ∧ (xmlGetProp node "pid").isSome = true

theorem release_pool_of_terminated (s : State) (h : poolTerminated s) :
    ∃ s1, __device_release_pool s = some s1 ∧ s1.heap_exhausted = s.heap_exhausted ∧
      s1.__default_baudrate = s.__default_baudrate ∧
      s1.__default_device = s.__default_device := by
  unfold poolTerminated at h
  unfold __device_release_pool
  cases hd : s.devices with
  | null => simp
  | freed => simp [hd] at h
  | live slots =>
    rw [hd] at h
    simp [releaseEntries_of_mem_none slots h]

theorem create_pool_of_terminated (n : Int) (s : State) (hn : 0 < n)
    (hheap : s.heap_exhausted = false) (hpool : poolTerminated s) :
    ∃ s1, __device_create_pool n s = some (0, s1) ∧
      s1.devices = PoolPtr.live (poolOf [] n.toNat) ∧ s1.nr_devices = n.toNat ∧
      s1.last = 0 ∧ s1.heap_exhausted = false ∧
      s1.__default_baudrate = s.__default_baudrate ∧
      s1.__default_device = s.__default_device := by
  obtain ⟨s0, h0, hh, hb, hd⟩ := release_pool_of_terminated s hpool
  have hn1 : ¬ n ≤ 0 := by omega
  have h0h : s0.heap_exhausted = false := by rw [hh, hheap]
  refine ⟨{ s0 with devices := PoolPtr.live (List.replicate (n.toNat + 1) none),
                    nr_devices := n.toNat, last := 0 }, ?_, ?_, rfl, rfl, h0h, hb, hd⟩
  · unfold __device_create_pool
    simp [hn1, h0, h0h]
  · rfl

theorem lookupLoop_poolOf (vid pid : Nat) (room : Nat) :
    ∀ ds : List gpsdevice, lookupLoop vid pid (poolOf ds room) =
      some (ds.find? (fun d => decide (d.vid = vid ∧ d.pid = pid)))
  | [] => by simp [poolOf, List.replicate_succ, lookupLoop]
  | d :: ds => by
    have ih := lookupLoop_poolOf vid pid room ds
    unfold poolOf at ih
    by_cases h : d.vid = vid ∧ d.pid = pid
    · simp [poolOf, lookupLoop, h, List.find?_cons]
    · simp [poolOf, lookupLoop, h, List.find?_cons, ih]

theorem device_add_poolOf (node : xmlNode) (s : State) (ds : List gpsdevice) (room : Nat)
    (hids : hasIds node) (hheap : s.heap_exhausted = false)
    (hdev : s.devices = PoolPtr.live (poolOf ds (room + 1))) (hlast : s.last = ds.length) :
    __device_add node s =
      some (0, { s with devices := PoolPtr.live (poolOf (ds ++ [deviceOf s node]) room),
                        last := (ds ++ [deviceOf s node]).length }) := by
  obtain ⟨hv, hp⟩ := hids
  obtain ⟨vid, hv⟩ := Option.isSome_iff_exists.mp hv
  obtain ⟨pid, hp⟩ := Option.isSome_iff_exists.mp hp
  have hset : (poolOf ds (room + 1)).set ds.length (some (deviceOf s node)) =
      poolOf (ds ++ [deviceOf s node]) room := by
    unfold poolOf
    rw [List.set_append_right _ _ (by simp)]
    simp [List.replicate_succ]
  have hlt : ds.length < (poolOf ds (room + 1)).length := by simp [poolOf]
  cases node with
  | null => simp [xmlGetProp] at hv
  | node ty name props children next =>
    have hdo : newDevice vid pid
        (xmlGetProp (xmlNode.node ty name props children next) "baudrate") s =
        deviceOf s (xmlNode.node ty name props children next) := by
      simp [deviceOf, hv, hp]
    unfold __device_add
    simp only [hv, hp, hheap, hdev, hlast, hdo, if_pos hlt, hset]
    simp

/-- C8: `__device_create_pool(n)` with `n <= 0` returns `-EINVAL`, whatever the state, and
leaves the state as it was. -/
theorem create_pool_rejects_nonpositive (n : Int) (s : State) (h : n ≤ 0) :
    __device_create_pool n s = some (-EINVAL, s) := by
  unfold __device_create_pool
  simp [h]

theorem create_pool_rejects_nonpositive_witness :
    ((0 : Int) ≤ 0 ∧ __device_create_pool 0 initState = some (-22, initState)) ∧
    ((-5 : Int) ≤ 0 ∧ __device_create_pool (-5) initState = some (-22, initState)) :=
  ⟨⟨by decide, create_pool_rejects_nonpositive 0 initState (by decide)⟩,
   ⟨by decide, create_pool_rejects_nonpositive (-5) initState (by decide)⟩⟩

/-- C10: for every token `T` of the table `termbits` and every state (so every value of
the default baud rate), `nameof_termbits (__termbits T)` is `T`. -/
theorem termbits_round_trip (T : String) (s : State) (h : T ∈ termbits.map Prod.fst) :
    nameof_termbits (__termbits (some T) s) = T := by
  simp only [termbits, List.map_cons, List.map_nil, List.mem_cons, List.mem_singleton,
    List.not_mem_nil, or_false] at h
  rcases h with h | h | h <;> subst h <;> rfl

theorem termbits_round_trip_witness :
    "4800" ∈ termbits.map Prod.fst ∧
    nameof_termbits (__termbits (some "4800") { initState with __default_baudrate := 7 })
      = "4800" :=
  ⟨by decide, termbits_round_trip "4800" _ (by decide)⟩

/-- C7: `__device_add` on an entry without `vid` or without `pid` returns `-EINVAL` and
leaves the whole state (entries, cursor, capacity) as it was, whatever the state; on an
entry with both attributes, with the allocator not exhausted and the cursor below the
capacity of a pool of `nr_devices + 1` slots, it returns 0, stores at the cursor slot the
record made of the base-16 values of `vid` and `pid` and of `__termbits` of `baudrate`,
and moves the cursor up by one. -/
theorem device_add_contract (ty : Nat) (name : String) (props : List (String × String))
    (children next : xmlNode) (s : State) :
    ((xmlGetProp (xmlNode.node ty name props children next) "vid" = none ∨
        xmlGetProp (xmlNode.node ty name props children next) "pid" = none) →
      __device_add (xmlNode.node ty name props children next) s = some (-EINVAL, s)) ∧
    (∀ (vid pid : String) (slots : List (Option gpsdevice)),
      xmlGetProp (xmlNode.node ty name props children next) "vid" = some vid →
      xmlGetProp (xmlNode.node ty name props children next) "pid" = some pid →
      s.heap_exhausted = false →
      s.devices = PoolPtr.live slots → slots.length = s.nr_devices + 1 →
      s.last < s.nr_devices →
      __device_add (xmlNode.node ty name props children next) s =
        some (0, { s with
          devices := PoolPtr.live (slots.set s.last (some
            { vid := toUint16 (strtol16 vid), pid := toUint16 (strtol16 pid),
              baudrate := __termbits
                (xmlGetProp (xmlNode.node ty name props children next) "baudrate") s })),
          last := s.last + 1 })) := by
  constructor
  · intro h
    unfold __device_add
    rcases h with h | h
    · simp [h]
    · cases hv : xmlGetProp (xmlNode.node ty name props children next) "vid" <;> simp [h]
  · intro vid pid slots hv hp hheap hdev hlen hlast
    have hlt : s.last < slots.length := by omega
    unfold __device_add
    simp [hv, hp, hheap, hdev, hlt, newDevice]

theorem device_add_contract_witness :
    (xmlGetProp (xmlNode.node 1 "usbdev" [("vid", "1546")] xmlNode.null xmlNode.null) "pid"
        = none ∧
      __device_add (xmlNode.node 1 "usbdev" [("vid", "1546")] xmlNode.null xmlNode.null)
        initState = some (-22, initState)) ∧
    __device_add
        (xmlNode.node 1 "usbdev" [("vid", "1546"), ("pid", "01a7"), ("baudrate", "4800")]
          xmlNode.null xmlNode.null)
        { initState with devices := PoolPtr.live [none, none], nr_devices := 1 } =
      some (0, { initState with
        devices := PoolPtr.live [some { vid := 0x1546, pid := 0x01A7, baudrate := B4800 },
          none],
        nr_devices := 1, last := 1 }) :=
  ⟨⟨by decide,
    (device_add_contract 1 "usbdev" [("vid", "1546")] xmlNode.null xmlNode.null
      initState).1 (Or.inr (by decide))⟩,
   (device_add_contract 1 "usbdev" [("vid", "1546"), ("pid", "01a7"), ("baudrate", "4800")]
      xmlNode.null xmlNode.null
      { initState with devices := PoolPtr.live [none, none], nr_devices := 1 }).2
      "1546" "01a7" [none, none] (by decide) (by decide) (by decide) (by decide)
      (by decide) (by decide)⟩

/-- The entry used to exercise `__device_add`. -/
def sampleUsbdev : xmlNode :=
  usbdevElement [("vid", "1546"), ("pid", "01a7"), ("baudrate", "9600")] xmlNode.null

/-- The record that `sampleUsbdev` is stored as. -/
def sampleDevice : gpsdevice := { vid := 0x1546, pid := 0x01A7, baudrate := B9600 }

/-- Runs `__device_add` on each node in turn and collects the return values. -/
def addEach : List xmlNode → State → Option (List Int × State)
  | [], s => some ([], s)
  | node :: rest, s =>
    match __device_add node s with
    | none => none
    | some (ret, s1) =>
      match addEach rest s1 with
      | none => none
      | some (rets, s2) => some (ret :: rets, s2)

/-- At any capacity: on a pool whose record slots are all taken, `__device_add` of an
entry with both ids still returns 0; it writes into the terminating slot and moves the
cursor past the capacity. -/
theorem device_add_full_pool (node : xmlNode) (s : State) (ds : List gpsdevice)
    (hids : hasIds node) (hheap : s.heap_exhausted = false)
    (hdev : s.devices = PoolPtr.live (poolOf ds 0)) (hlast : s.last = ds.length) :
    __device_add node s =
      some (0, { s with devices := PoolPtr.live ((ds ++ [deviceOf s node]).map some),
                        last := ds.length + 1 }) := by
  obtain ⟨hv, hp⟩ := hids
  obtain ⟨vid, hv⟩ := Option.isSome_iff_exists.mp hv
  obtain ⟨pid, hp⟩ := Option.isSome_iff_exists.mp hp
  have hlt : ds.length < (poolOf ds 0).length := by simp [poolOf]
  have hset : (poolOf ds 0).set ds.length (some (deviceOf s node)) =
      (ds ++ [deviceOf s node]).map some := by
    unfold poolOf
    rw [List.set_append_right _ _ (by simp)]
    simp
  cases node with
  | null => simp [xmlGetProp] at hv
  | node ty name props children next =>
    have hdo : newDevice vid pid
        (xmlGetProp (xmlNode.node ty name props children next) "baudrate") s =
        deviceOf s (xmlNode.node ty name props children next) := by
      simp [deviceOf, hv, hp]
    unfold __device_add
    simp only [hv, hp, hheap, hdev, hlast, hdo, if_pos hlt, hset]
    simp

/-- C6: `__device_create_pool(2)` followed by three `__device_add` calls: the code has no
capacity check, so the third call returns 0 too; it stores its record in the slot that
held the terminating `NULL`, the cursor becomes 3 > 2, and `gps_lookup` of an
unregistered pair then runs past the end of the block. -/
theorem device_add_third_of_two_returns_zero :
    __device_create_pool 2 initState =
      some (0, { initState with devices := PoolPtr.live [none, none, none],
                                nr_devices := 2 }) ∧
    addEach [sampleUsbdev, sampleUsbdev, sampleUsbdev]
        { initState with devices := PoolPtr.live [none, none, none], nr_devices := 2 } =
      some ([0, 0, 0], { initState with
        devices := PoolPtr.live [some sampleDevice, some sampleDevice, some sampleDevice],
        nr_devices := 2, last := 3 }) ∧
    gps_lookup 0 0 { initState with
        devices := PoolPtr.live [some sampleDevice, some sampleDevice, some sampleDevice],
        nr_devices := 2, last := 3 } = none :=
  ⟨by decide, by decide, by decide⟩

theorem deviceOf_congr (s s1 : State) (node : xmlNode)
    (h : s1.__default_baudrate = s.__default_baudrate) : deviceOf s1 node = deviceOf s node := by
  unfold deviceOf newDevice __termbits
  rw [h]

theorem create_pool_success_inv (n : Int) (s0 s1 : State)
    (h : __device_create_pool n s0 = some (0, s1)) :
    0 < n ∧ s1.devices = PoolPtr.live (poolOf [] n.toNat) ∧ s1.nr_devices = n.toNat ∧
      s1.last = 0 ∧ s1.heap_exhausted = false ∧
      s1.__default_baudrate = s0.__default_baudrate := by
  unfold __device_create_pool at h
  by_cases hn : 0 ≥ n
  · simp [hn, EINVAL] at h
  · rw [if_neg hn] at h
    cases hr : __device_release_pool s0 with
    | none => simp [hr] at h
    | some s2 =>
      have hb : s2.__default_baudrate = s0.__default_baudrate := by
        unfold __device_release_pool at hr
        cases hd : s0.devices with
        | null => simp [hd] at hr; rw [← hr]
        | freed => simp [hd] at hr
        | live slots =>
          simp only [hd] at hr
          cases he : releaseEntries slots with
          | none => simp [he] at hr
          | some u => simp [he] at hr; rw [← hr]
      simp only [hr] at h
      by_cases hx : s2.heap_exhausted = true
      · simp [hx, ENOMEM] at h
      · simp only [hx] at h
        simp at h
        subst h
        simp at hx
        exact ⟨by omega, rfl, rfl, rfl, rfl, hb⟩

theorem addEach_poolOf :
    ∀ (nodes : List xmlNode) (s : State) (ds : List gpsdevice) (room : Nat),
      (∀ node ∈ nodes, hasIds node) → s.heap_exhausted = false →
      s.devices = PoolPtr.live (poolOf ds (room + nodes.length)) → s.last = ds.length →
      addEach nodes s = some (List.replicate nodes.length 0,
        { s with devices := PoolPtr.live (poolOf (ds ++ nodes.map (deviceOf s)) room),
                 last := (ds ++ nodes.map (deviceOf s)).length })
  | [], s, ds, room, _, _, hdev, hlast => by
    simp only [List.length_nil, Nat.add_zero] at hdev
    simp [addEach, ← hdev, ← hlast]
  | node :: rest, s, ds, room, hids, hheap, hdev, hlast => by
    have hstep := device_add_poolOf node s ds (room + rest.length)
      (hids node (List.mem_cons_self _ _)) hheap hdev hlast
    have ih := addEach_poolOf rest
      { s with devices := PoolPtr.live (poolOf (ds ++ [deviceOf s node]) (room + rest.length)),
               last := (ds ++ [deviceOf s node]).length }
      (ds ++ [deviceOf s node]) room
      (fun x hx => hids x (List.mem_cons_of_mem _ hx)) hheap rfl rfl
    have hcongr : deviceOf
        { s with devices := PoolPtr.live (poolOf (ds ++ [deviceOf s node]) (room + rest.length)),
                 last := (ds ++ [deviceOf s node]).length } = deviceOf s :=
      funext (fun x => deviceOf_congr _ _ x rfl)
    rw [hcongr] at ih
    simp only [addEach, hstep, ih]
    simp [List.replicate_succ]

/-- C9: when `n > 0`, the allocator is not exhausted and the previous pool (if any) is a
live block with a `NULL` slot, `__device_create_pool(n)` returns 0 and leaves capacity
`n`, cursor 0 and a pool of `n + 1` empty slots, in which `gps_lookup` finds nothing for
any `(vid, pid)`, whatever was registered before. -/
theorem create_pool_fresh (n : Int) (s : State) (hn : 0 < n)
    (hheap : s.heap_exhausted = false) (hpool : poolTerminated s) :
    ∃ s1, __device_create_pool n s = some (0, s1) ∧
      (s1.nr_devices : Int) = n ∧ s1.last = 0 ∧
      s1.devices = PoolPtr.live (List.replicate (n.toNat + 1) none) ∧
      ∀ vid pid, gps_lookup vid pid s1 = some none := by
  obtain ⟨s1, h1, hdev, hnr, hlast, _, _, _⟩ := create_pool_of_terminated n s hn hheap hpool
  refine ⟨s1, h1, ?_, hlast, ?_, ?_⟩
  · rw [hnr]; omega
  · rw [hdev]; rfl
  · intro vid pid
    unfold gps_lookup
    rw [hdev]
    simpa using lookupLoop_poolOf vid pid n.toNat []

theorem create_pool_fresh_witness :
    gps_lookup 0x1546 0x01A7
        { initState with devices := PoolPtr.live [some sampleDevice, none],
                         nr_devices := 1, last := 1 } = some (some sampleDevice) ∧
    ∃ s1, __device_create_pool 3
        { initState with devices := PoolPtr.live [some sampleDevice, none],
                         nr_devices := 1, last := 1 } = some (0, s1) ∧
      (s1.nr_devices : Int) = 3 ∧ s1.last = 0 ∧
      s1.devices = PoolPtr.live (List.replicate ((3 : Int).toNat + 1) none) ∧
      ∀ vid pid, gps_lookup vid pid s1 = some none :=
  ⟨by decide,
   create_pool_fresh 3
     { initState with devices := PoolPtr.live [some sampleDevice, none],
                      nr_devices := 1, last := 1 }
     (by decide) rfl (by simp [poolTerminated])⟩

/-- C3: after `__device_create_pool(n)` has succeeded, inserting with `__device_add` any
sequence of at most `n` entries that carry `vid` and `pid` succeeds for each of them, and
`gps_lookup(vid, pid)` then returns the earliest inserted record whose `vid` and `pid` both
equal the query, and `NULL` when no inserted record has that pair. -/
theorem gps_lookup_first_match (n : Int) (s0 s1 : State) (nodes : List xmlNode)
    (vid pid : Nat) (hpool : __device_create_pool n s0 = some (0, s1))
    (hlen : (nodes.length : Int) ≤ n) (hids : ∀ node ∈ nodes, hasIds node) :
    ∃ s2, addEach nodes s1 = some (List.replicate nodes.length 0, s2) ∧
      gps_lookup vid pid s2 =
        some ((nodes.map (deviceOf s1)).find? (fun d => decide (d.vid = vid ∧ d.pid = pid))) := by
  obtain ⟨hn, hdev, _, hlast, hheap, _⟩ := create_pool_success_inv n s0 s1 hpool
  have hroom : n.toNat = (n.toNat - nodes.length) + nodes.length := by omega
  rw [hroom] at hdev
  have hadd := addEach_poolOf nodes s1 [] (n.toNat - nodes.length) hids hheap hdev hlast
  refine ⟨_, hadd, ?_⟩
  unfold gps_lookup
  simpa using lookupLoop_poolOf vid pid (n.toNat - nodes.length) (nodes.map (deviceOf s1))

/-- Two entries with the same ids and different baud rates. -/
def duplicateEntries : List xmlNode :=
  [usbdevElement [("vid", "10"), ("pid", "20"), ("baudrate", "2400")] xmlNode.null,
   usbdevElement [("vid", "10"), ("pid", "20"), ("baudrate", "4800")] xmlNode.null]

/-- Two entries with different ids. -/
def distinctEntries : List xmlNode :=
  [usbdevElement [("vid", "1546"), ("pid", "01a7"), ("baudrate", "9600")] xmlNode.null,
   usbdevElement [("vid", "1199"), ("pid", "9011"), ("baudrate", "4800")] xmlNode.null]

/-- The state after `__device_create_pool(2)` at process start. -/
def emptyPool2 : State :=
  { initState with devices := PoolPtr.live [none, none, none], nr_devices := 2 }

theorem gps_lookup_first_match_witness :
    (∃ s2, addEach duplicateEntries emptyPool2 = some ([0, 0], s2) ∧
      gps_lookup 0x10 0x20 s2 = some (some { vid := 0x10, pid := 0x20, baudrate := B2400 })) ∧
    (∃ s2, addEach distinctEntries emptyPool2 = some ([0, 0], s2) ∧
      gps_lookup 0x1546 0x01A7 s2 =
        some (some { vid := 0x1546, pid := 0x01A7, baudrate := B9600 })) ∧
    (∃ s2, addEach distinctEntries emptyPool2 = some ([0, 0], s2) ∧
      gps_lookup 0 0 s2 = some none) :=
  ⟨(gps_lookup_first_match 2 initState emptyPool2 duplicateEntries 0x10 0x20
      (by decide) (by decide)
      (by intro node h; simp [duplicateEntries] at h; rcases h with h | h <;> subst h <;>
            exact ⟨by decide, by decide⟩)).imp
      (fun _ h => ⟨h.1, h.2.trans (by decide)⟩),
   (gps_lookup_first_match 2 initState emptyPool2 distinctEntries 0x1546 0x01A7
      (by decide) (by decide)
      (by intro node h; simp [distinctEntries] at h; rcases h with h | h <;> subst h <;>
            exact ⟨by decide, by decide⟩)).imp
      (fun _ h => ⟨h.1, h.2.trans (by decide)⟩),
   (gps_lookup_first_match 2 initState emptyPool2 distinctEntries 0 0
      (by decide) (by decide)
      (by intro node h; simp [distinctEntries] at h; rcases h with h | h <;> subst h <;>
            exact ⟨by decide, by decide⟩)).imp
      (fun _ h => ⟨h.1, h.2.trans (by decide)⟩)⟩

/-! ## Properties of the matcher -/

/-- The records a block holds: those in the slots before the first `NULL` slot. -/
def registered : List (Option gpsdevice) → List gpsdevice
  | [] => []
  | none :: _ => []
  | some d :: rest => d :: registered rest

theorem lookupLoop_registered (vid pid : Nat) :
    ∀ slots : List (Option gpsdevice), none ∈ slots →
      lookupLoop vid pid slots =
        some ((registered slots).find? (fun d => decide (d.vid = vid ∧ d.pid = pid)))
  | [], h => by simp at h
  | none :: _, _ => by simp [lookupLoop, registered]
  | some d :: rest, h => by
    have h1 : none ∈ rest := by simpa using h
    have ih := lookupLoop_registered vid pid rest h1
    by_cases hm : d.vid = vid ∧ d.pid = pid
    · simp [lookupLoop, registered, hm, List.find?_cons]
    · simp [lookupLoop, registered, hm, List.find?_cons, ih]

theorem registered_poolOf (ds : List gpsdevice) (room : Nat) :
    registered (poolOf ds room) = ds := by
  induction ds with
  | nil => simp [poolOf, List.replicate_succ, registered]
  | cons d ds ih =>
    unfold poolOf at ih
    simp [poolOf, registered, ih]

/-- The live device has a retrievable descriptor whose pair `gps_lookup` does not find,
or no retrievable descriptor at all: the loop of `usbdev_lookup` moves on. -/
def passedOver (s : State) (dev : libusb_device) : Prop :=
  dev.descriptor = none ∨
    ∃ idVendor idProduct, dev.descriptor = some (idVendor, idProduct) ∧
      gps_lookup idVendor idProduct s = some none

theorem usbdevLoop_passedOver (s : State) (dev : libusb_device) (rest : List libusb_device)
    (h : passedOver s dev) : usbdevLoop s (dev :: rest) = usbdevLoop s rest := by
  rcases h with h | ⟨v, p, hd, hg⟩
  · simp [usbdevLoop, h]
  · simp [usbdevLoop, hd, hg]

theorem usbdevLoop_skip (s : State) (post : List libusb_device) :
    ∀ pre : List libusb_device, (∀ x ∈ pre, passedOver s x) →
      usbdevLoop s (pre ++ post) = usbdevLoop s post
  | [], _ => rfl
  | x :: pre, h => by
    rw [List.cons_append, usbdevLoop_passedOver s x _ (h x (List.mem_cons_self _ _))]
    exact usbdevLoop_skip s post pre (fun y hy => h y (List.mem_cons_of_mem _ hy))

theorem usbdevLoop_success_split (s : State) (out : ScanOut) :
    ∀ devs : List libusb_device, usbdevLoop s devs = some out → out.ret = 0 →
      ∃ pre dev post idVendor idProduct gps,
        devs = pre ++ dev :: post ∧ (∀ x ∈ pre, passedOver s x) ∧
        dev.descriptor = some (idVendor, idProduct) ∧
        gps_lookup idVendor idProduct s = some (some gps) ∧
        out = { ret := 0,
                devname := if s.heap_exhausted then none
                           else some (devicePath dev.bus_number dev.device_address),
                baudrate := some gps.baudrate }
  | [], h, hret => by
    simp [usbdevLoop] at h
    subst h
    simp [EINVAL] at hret
  | dev :: rest, h, hret => by
    cases hd : dev.descriptor with
    | none =>
      have hp : passedOver s dev := Or.inl hd
      rw [usbdevLoop_passedOver s dev rest hp] at h
      obtain ⟨pre, d, post, v, p, g, hsplit, hpre, hrest⟩ :=
        usbdevLoop_success_split s out rest h hret
      refine ⟨dev :: pre, d, post, v, p, g, by simp [hsplit], ?_, hrest⟩
      intro x hx
      rcases List.mem_cons.mp hx with hx | hx
      · subst hx; exact hp
      · exact hpre x hx
    | some ids =>
      obtain ⟨v, p⟩ := ids
      cases hg : gps_lookup v p s with
      | none => simp [usbdevLoop, hd, hg] at h
      | some r =>
        cases r with
        | none =>
          have hp : passedOver s dev := Or.inr ⟨v, p, hd, hg⟩
          rw [usbdevLoop_passedOver s dev rest hp] at h
          obtain ⟨pre, d, post, v1, p1, g, hsplit, hpre, hrest⟩ :=
            usbdevLoop_success_split s out rest h hret
          refine ⟨dev :: pre, d, post, v1, p1, g, by simp [hsplit], ?_, hrest⟩
          intro x hx
          rcases List.mem_cons.mp hx with hx | hx
          · subst hx; exact hp
          · exact hpre x hx
        | some g =>
          simp only [usbdevLoop, hd, hg, Option.some.injEq] at h
          exact ⟨[], dev, rest, v, p, g, rfl, by simp, hd, hg, h.symm⟩

/-- C2: when `usbdev_lookup` (with non-`NULL` output parameters, `strdup` succeeding)
returns 0, the live list splits into devices that were passed over (no descriptor, or a
pair `gps_lookup` does not find), then the first device with a descriptor whose pair
`gps_lookup` finds; the stored path is made of the bus number and address of that device,
the stored baud rate is that of the record `gps_lookup` returns for it, and the result is
the same whatever devices follow it. -/
theorem usbdev_lookup_first_found (s : State) (devs : List libusb_device) (out : ScanOut)
    (hheap : s.heap_exhausted = false)
    (h : usbdev_lookup devs true true s = some out) (hret : out.ret = 0) :
    ∃ pre dev post idVendor idProduct gps,
      devs = pre ++ dev :: post ∧ (∀ x ∈ pre, passedOver s x) ∧
      dev.descriptor = some (idVendor, idProduct) ∧
      gps_lookup idVendor idProduct s = some (some gps) ∧
      out.devname = some (devicePath dev.bus_number dev.device_address) ∧
      out.baudrate = some gps.baudrate ∧
      ∀ later, usbdev_lookup (pre ++ dev :: later) true true s = some out := by
  simp only [usbdev_lookup, Bool.true_eq_false, or_self, if_false] at h
  obtain ⟨pre, dev, post, v, p, g, hsplit, hpre, hd, hg, hout⟩ :=
    usbdevLoop_success_split s out devs h hret
  rw [hheap] at hout
  refine ⟨pre, dev, post, v, p, g, hsplit, hpre, hd, hg, by simp [hout], by simp [hout], ?_⟩
  intro later
  simp only [usbdev_lookup, Bool.true_eq_false, or_self, if_false]
  rw [usbdevLoop_skip s _ pre hpre]
  simp [usbdevLoop, hd, hg, hout, hheap]

/-- A pool of two records, and a live list in which the third and the fourth device both
have a registered pair. -/
def twoRecordPool : State :=
  { initState with
    devices := PoolPtr.live [some { vid := 0x1546, pid := 0x01A7, baudrate := B9600 },
      some { vid := 0x1199, pid := 0x9011, baudrate := B4800 }, none],
    nr_devices := 2, last := 2 }

/-- A live list: no descriptor, an unregistered pair, then two registered pairs. -/
def fourLiveDevices : List libusb_device :=
  [{ descriptor := none, bus_number := 1, device_address := 1 },
   { descriptor := some (0x1d6b, 0x0002), bus_number := 1, device_address := 2 },
   { descriptor := some (0x1546, 0x01A7), bus_number := 1, device_address := 7 },
   { descriptor := some (0x1199, 0x9011), bus_number := 2, device_address := 9 }]

theorem usbdev_lookup_first_found_witness :
    usbdev_lookup fourLiveDevices true true twoRecordPool =
      some { ret := 0, devname := some "/dev/bus/usb/001/007", baudrate := some B9600 } ∧
    ∃ pre dev post idVendor idProduct gps,
      fourLiveDevices = pre ++ dev :: post ∧ (∀ x ∈ pre, passedOver twoRecordPool x) ∧
      dev.descriptor = some (idVendor, idProduct) ∧
      gps_lookup idVendor idProduct twoRecordPool = some (some gps) ∧
      some "/dev/bus/usb/001/007" = some (devicePath dev.bus_number dev.device_address) ∧
      some B9600 = some gps.baudrate ∧
      ∀ later, usbdev_lookup (pre ++ dev :: later) true true twoRecordPool =
        some { ret := 0, devname := some "/dev/bus/usb/001/007", baudrate := some B9600 } :=
  ⟨by decide,
   usbdev_lookup_first_found twoRecordPool fourLiveDevices
     { ret := 0, devname := some "/dev/bus/usb/001/007", baudrate := some B9600 }
     (by decide) (by decide) (by decide)⟩

theorem usbdevLoop_total (s : State) (slots : List (Option gpsdevice))
    (hdev : s.devices = PoolPtr.live slots) (hterm : none ∈ slots) :
    ∀ devs : List libusb_device, ∃ out, usbdevLoop s devs = some out ∧
      (out.ret = -EINVAL ↔
        ∀ dev ∈ devs, ∀ idVendor idProduct, dev.descriptor = some (idVendor, idProduct) →
          ∀ d ∈ registered slots, ¬ (d.vid = idVendor ∧ d.pid = idProduct))
  | [] => ⟨_, rfl, by simp⟩
  | dev :: rest => by
    obtain ⟨out, hout, hiff⟩ := usbdevLoop_total s slots hdev hterm rest
    cases hd : dev.descriptor with
    | none =>
      refine ⟨out, by simp [usbdevLoop, hd, hout], ?_⟩
      rw [hiff]
      simp [hd]
    | some ids =>
      obtain ⟨v, p⟩ := ids
      have hg : gps_lookup v p s =
          some ((registered slots).find? (fun d => decide (d.vid = v ∧ d.pid = p))) := by
        unfold gps_lookup
        rw [hdev]
        exact lookupLoop_registered v p slots hterm
      cases hf : (registered slots).find? (fun d => decide (d.vid = v ∧ d.pid = p)) with
      | none =>
        rw [hf] at hg
        refine ⟨out, by simp [usbdevLoop, hd, hg, hout], ?_⟩
        rw [hiff]
        have hnone := List.find?_eq_none.mp hf
        constructor
        · intro h x hx
          rcases List.mem_cons.mp hx with hx | hx
          · subst hx
            intro v1 p1 h1 d hdm
            rw [hd] at h1
            simp only [Option.some.injEq, Prod.mk.injEq] at h1
            obtain ⟨hv, hp⟩ := h1
            subst hv; subst hp
            simpa using hnone d hdm
          · exact h x hx
        · intro h x hx
          exact h x (List.mem_cons_of_mem _ hx)
      | some g =>
        rw [hf] at hg
        refine ⟨{ ret := 0,
                  devname := if s.heap_exhausted then none
                             else some (devicePath dev.bus_number dev.device_address),
                  baudrate := some g.baudrate }, by simp only [usbdevLoop, hd, hg], ?_⟩
        have hmem := List.mem_of_find?_eq_some hf
        have hpg := List.find?_some hf
        simp only [decide_eq_true_eq] at hpg
        constructor
        · intro h
          simp [EINVAL] at h
        · intro h
          exact absurd hpg (h dev (List.mem_cons_self _ _) v p hd g hmem)

/-- C4: on a pool that is a live block with a `NULL` slot, `usbdev_lookup` (with
non-`NULL` output parameters) has a result, and returns `-EINVAL` exactly when no live
device with a retrievable descriptor has an `(idVendor, idProduct)` pair equal to the pair
of a registered record; a device whose descriptor cannot be retrieved is skipped: the
result is that of the remaining devices. -/
theorem usbdev_lookup_not_found (s : State) (slots : List (Option gpsdevice))
    (devs : List libusb_device)
    (hdev : s.devices = PoolPtr.live slots) (hterm : none ∈ slots) :
    (∃ out, usbdev_lookup devs true true s = some out ∧
      (out.ret = -EINVAL ↔
        ∀ dev ∈ devs, ∀ idVendor idProduct, dev.descriptor = some (idVendor, idProduct) →
          ∀ d ∈ registered slots, ¬ (d.vid = idVendor ∧ d.pid = idProduct))) ∧
    (∀ dev rest, dev.descriptor = none →
      usbdev_lookup (dev :: rest) true true s = usbdev_lookup rest true true s) := by
  constructor
  · simpa [usbdev_lookup] using usbdevLoop_total s slots hdev hterm devs
  · intro dev rest hd
    simp [usbdev_lookup, usbdevLoop, hd]

theorem usbdev_lookup_not_found_witness :
    usbdev_lookup
        [{ descriptor := none, bus_number := 1, device_address := 1 },
         { descriptor := some (0x1d6b, 0x0002), bus_number := 1, device_address := 2 }]
        true true twoRecordPool =
      some { ret := -22, devname := none, baudrate := none } ∧
    ((∃ out, usbdev_lookup
        [{ descriptor := none, bus_number := 1, device_address := 1 },
         { descriptor := some (0x1d6b, 0x0002), bus_number := 1, device_address := 2 }]
        true true twoRecordPool = some out ∧
      (out.ret = -EINVAL ↔
        ∀ dev ∈ [({ descriptor := none, bus_number := 1, device_address := 1 } : libusb_device),
                 { descriptor := some (0x1d6b, 0x0002), bus_number := 1, device_address := 2 }],
          ∀ idVendor idProduct, dev.descriptor = some (idVendor, idProduct) →
          ∀ d ∈ registered [some { vid := 0x1546, pid := 0x01A7, baudrate := B9600 },
              some { vid := 0x1199, pid := 0x9011, baudrate := B4800 }, none],
            ¬ (d.vid = idVendor ∧ d.pid = idProduct))) ∧
    (∀ dev rest, dev.descriptor = none →
      usbdev_lookup (dev :: rest) true true twoRecordPool =
        usbdev_lookup rest true true twoRecordPool)) :=
  ⟨by decide,
   usbdev_lookup_not_found twoRecordPool _ _ rfl (by decide)⟩

/-- The character of a decimal digit. -/
def digitChar (d : Nat) : Char := Char.ofNat (48 + d)

/-- A number below 1000 written as three decimal digits, zeros included. -/
def threeDigits (n : Nat) : String :=
  String.mk [digitChar (n / 100), digitChar (n / 10 % 10), digitChar (n % 10)]

set_option maxRecDepth 100000 in
theorem fmt03d_eq_threeDigits : ∀ n, n ≤ 255 → fmt03d n = threeDigits n := by
  decide

theorem threeDigits_length (n : Nat) : (threeDigits n).length = 3 := rfl

/-- C5: on a hit for a live device whose bus number and address are in 0..255 (with
non-`NULL` output parameters, `strdup` succeeding), the stored path is `/dev/bus/usb/`,
the bus number as three zero-padded decimal digits, `/`, and the address as three
zero-padded decimal digits; it has 20 characters. -/
theorem device_path_format (s : State) (dev : libusb_device) (rest : List libusb_device)
    (idVendor idProduct : Nat) (gps : gpsdevice)
    (hd : dev.descriptor = some (idVendor, idProduct))
    (hg : gps_lookup idVendor idProduct s = some (some gps))
    (hheap : s.heap_exhausted = false)
    (hbus : dev.bus_number ≤ 255) (haddr : dev.device_address ≤ 255) :
    ∃ path, usbdev_lookup (dev :: rest) true true s =
        some { ret := 0, devname := some path, baudrate := some gps.baudrate } ∧
      path = "/dev/bus/usb/" ++ threeDigits dev.bus_number ++ "/" ++
        threeDigits dev.device_address ∧
      path.length = 20 := by
  refine ⟨devicePath dev.bus_number dev.device_address, ?_, ?_, ?_⟩
  · simp [usbdev_lookup, usbdevLoop, hd, hg, hheap]
  · simp only [devicePath, fmt03d_eq_threeDigits _ hbus, fmt03d_eq_threeDigits _ haddr]
  · simp only [devicePath, fmt03d_eq_threeDigits _ hbus, fmt03d_eq_threeDigits _ haddr,
      String.length_append, threeDigits_length]
    rfl

theorem device_path_format_witness :
    "/dev/bus/usb/" ++ threeDigits 1 ++ "/" ++ threeDigits 7 = "/dev/bus/usb/001/007" ∧
    ∃ path, usbdev_lookup
        [{ descriptor := some (0x1546, 0x01A7), bus_number := 1, device_address := 7 }]
        true true twoRecordPool =
        some { ret := 0, devname := some path, baudrate := some B9600 } ∧
      path = "/dev/bus/usb/" ++ threeDigits 1 ++ "/" ++ threeDigits 7 ∧
      path.length = 20 :=
  ⟨by decide,
   device_path_format twoRecordPool
     { descriptor := some (0x1546, 0x01A7), bus_number := 1, device_address := 7 } []
     0x1546 0x01A7 { vid := 0x1546, pid := 0x01A7, baudrate := B9600 }
     rfl (by decide) rfl (by decide) (by decide)⟩

/-! ## The documented configuration schema -/

/-- A sibling chain of nodes that are not elements and have no children (white space
text, comments). -/
def isFillerChain : xmlNode → Bool
  | xmlNode.null => true
  | xmlNode.node ty _ _ children next =>
    decide (ty ≠ XML_ELEMENT_NODE) && decide (children = xmlNode.null) && isFillerChain next

/-- The children of a `devices` element of the documented schema: every element on the
chain is a `usbdev` element that carries `vid` and `pid` and has no element below it. -/
def isUsbdevChain : xmlNode → Bool
  | xmlNode.null => true
  | xmlNode.node ty name props children next =>
    (if ty = XML_ELEMENT_NODE then
       decide (name = "usbdev") && (props.lookup "vid").isSome && (props.lookup "pid").isSome
         && isFillerChain children
     else decide (children = xmlNode.null)) && isUsbdevChain next

/-- The element nodes of a sibling chain, in document order. -/
def elementsOf : xmlNode → List xmlNode
  | xmlNode.null => []
  | xmlNode.node ty name props children next =>
    if ty = XML_ELEMENT_NODE then xmlNode.node ty name props children next :: elementsOf next
    else elementsOf next

/-- A sibling chain of fillers and childless `default` elements. -/
def isDefaultsChain : xmlNode → Bool
  | xmlNode.null => true
  | xmlNode.node ty name _ children next =>
    (if ty = XML_ELEMENT_NODE then decide (name = "default") && isFillerChain children
     else decide (children = xmlNode.null)) && isDefaultsChain next

/-- The children of the root element of the documented schema: fillers and `default`
elements, then one `devices` element with at least one `usbdev` child element, then
fillers and `default` elements. -/
def isConfigBody : xmlNode → Bool
  | xmlNode.null => false
  | xmlNode.node ty name _ children next =>
    if ty = XML_ELEMENT_NODE then
      if name = "devices" then
        isUsbdevChain children && decide (0 < countElements children) && isDefaultsChain next
      else decide (name = "default") && isFillerChain children && isConfigBody next
    else decide (children = xmlNode.null) && isConfigBody next

/-- A document of the documented schema: the root element is named `odroid-gps`, its
children form a configuration body, and only fillers follow it. -/
def isConfigDocument : xmlNode → Bool
  | xmlNode.null => false
  | xmlNode.node ty name _ children next =>
    decide (ty = XML_ELEMENT_NODE) && decide (name = "odroid-gps") && isConfigBody children
      && isFillerChain next

/-- The baud rate a token stands for, `dflt` when the token is absent or not in the
table. -/
def baudOfToken (dflt : Nat) (token : Option String) : Nat :=
  ((token.bind (fun t => termbitsLoop t termbits)).getD dflt)

/-- The profile of a `usbdev` entry: the hexadecimal values of `vid` and `pid` as 16-bit
numbers, and the baud rate of its `baudrate` token. -/
def entryProfile (dflt : Nat) (entry : xmlNode) : gpsdevice :=
  { vid := toUint16 (strtol16 ((xmlGetProp entry "vid").getD "")),
    pid := toUint16 (strtol16 ((xmlGetProp entry "pid").getD "")),
    baudrate := baudOfToken dflt (xmlGetProp entry "baudrate") }

/-- The profiles of a configuration body: those of the `usbdev` entries of its `devices`
element, in document order, with the default baud rate that the `default` elements before
it leave in force. -/
def bodyProfiles : xmlNode → Nat → List gpsdevice
  | xmlNode.null, _ => []
  | xmlNode.node ty name props children next, dflt =>
    if ty = XML_ELEMENT_NODE then
      if name = "devices" then (elementsOf children).map (entryProfile dflt)
      else if name = "default" then
        bodyProfiles next (baudOfToken dflt (props.lookup "baudrate"))
      else bodyProfiles next dflt
    else bodyProfiles next dflt

/-- The profiles of a configuration document read at process start, when the default baud
rate is `B9600`. -/
def configProfiles (root : xmlNode) : List gpsdevice :=
  match root with
  | xmlNode.null => []
  | xmlNode.node _ _ _ children _ => bodyProfiles children B9600

/-- The first profile, in configuration order, whose ids are those of the live device;
none when the device has no retrievable descriptor. -/
def firstProfile (profiles : List gpsdevice) (dev : libusb_device) : Option gpsdevice :=
  match dev.descriptor with
  | none => none
  | some (idVendor, idProduct) =>
    profiles.find? (fun e => decide (e.vid = idVendor ∧ e.pid = idProduct))

/-- What the specification says a scan delivers: for the first live device that has a
profile, the path of that device and the baud rate of its first profile; failure when
there is no such device. -/
def expectedScan (profiles : List gpsdevice) (devs : List libusb_device) : ScanOut :=
  match devs.findSome? (fun dev => (firstProfile profiles dev).map (fun e => (dev, e))) with
  | some (dev, e) =>
    { ret := 0, devname := some (devicePath dev.bus_number dev.device_address),
      baudrate := some e.baudrate }
  | none => { ret := -EINVAL, devname := none, baudrate := none }

/-! ## The scan on a document of the schema -/

theorem traverseLoop_filler :
    ∀ (c : xmlNode) (s : State), isFillerChain c = true → traverseLoop c s = some s
  | xmlNode.null, _, _ => rfl
  | xmlNode.node ty name props children next, s, h => by
    simp only [isFillerChain, Bool.and_eq_true, decide_eq_true_eq] at h
    obtain ⟨⟨hty, hch⟩, hnext⟩ := h
    subst hch
    simp only [traverseLoop, if_neg hty]
    exact traverseLoop_filler next s hnext

theorem deviceOf_eq_entryProfile (s : State) (node : xmlNode) :
    deviceOf s node = entryProfile s.__default_baudrate node := by
  unfold deviceOf newDevice entryProfile baudOfToken __termbits
  cases xmlGetProp node "baudrate" with
  | none => rfl
  | some t =>
    cases h : termbitsLoop t termbits <;> simp [h]

theorem countElements_eq_length :
    ∀ c : xmlNode, countElements c = (elementsOf c).length
  | xmlNode.null => rfl
  | xmlNode.node ty name props children next => by
    have ih := countElements_eq_length next
    by_cases hty : ty = XML_ELEMENT_NODE
    · simp [countElements, elementsOf, hty, ih, Nat.add_comm]
    · simp [countElements, elementsOf, hty, ih]

theorem traverseLoop_usbdevs :
    ∀ (c : xmlNode) (s : State) (ds : List gpsdevice) (room : Nat),
      isUsbdevChain c = true → s.heap_exhausted = false →
      s.devices = PoolPtr.live (poolOf ds (room + countElements c)) → s.last = ds.length →
      traverseLoop c s = some
        { s with
          devices := PoolPtr.live
            (poolOf (ds ++ (elementsOf c).map (entryProfile s.__default_baudrate)) room),
          last := (ds ++ (elementsOf c).map (entryProfile s.__default_baudrate)).length }
  | xmlNode.null, s, ds, room, _, _, hdev, hlast => by
    simp only [countElements, Nat.add_zero] at hdev
    simp [traverseLoop, elementsOf, ← hdev, ← hlast]
  | xmlNode.node ty name props children next, s, ds, room, h, hheap, hdev, hlast => by
    simp only [isUsbdevChain, Bool.and_eq_true] at h
    obtain ⟨hnode, hnext⟩ := h
    by_cases hty : ty = XML_ELEMENT_NODE
    · simp only [if_pos hty, Bool.and_eq_true, decide_eq_true_eq] at hnode
      obtain ⟨⟨⟨hname, hvid⟩, hpid⟩, hfill⟩ := hnode
      subst hname
      simp only [countElements, if_pos hty] at hdev
      have hroom : room + (1 + countElements next) = (room + countElements next) + 1 := by
        omega
      rw [hroom] at hdev
      have hadd := device_add_poolOf (xmlNode.node ty "usbdev" props children next) s ds
        (room + countElements next) ⟨hvid, hpid⟩ hheap hdev hlast
      rw [deviceOf_eq_entryProfile] at hadd
      have hvisit : visitElement (xmlNode.node ty "usbdev" props children next) s =
          some (false, { s with
            devices := PoolPtr.live (poolOf
              (ds ++ [entryProfile s.__default_baudrate
                (xmlNode.node ty "usbdev" props children next)]) (room + countElements next)),
            last := (ds ++ [entryProfile s.__default_baudrate
                (xmlNode.node ty "usbdev" props children next)]).length }) := by
        have h1 : ¬ ("usbdev" = "default") := by decide
        have h2 : ¬ ("usbdev" = "devices") := by decide
        simp only [visitElement, if_neg h1, if_neg h2, if_true, hadd]
      have ih := traverseLoop_usbdevs next
        { s with
            devices := PoolPtr.live (poolOf
              (ds ++ [entryProfile s.__default_baudrate
                (xmlNode.node ty "usbdev" props children next)]) (room + countElements next)),
            last := (ds ++ [entryProfile s.__default_baudrate
                (xmlNode.node ty "usbdev" props children next)]).length }
        (ds ++ [entryProfile s.__default_baudrate
                (xmlNode.node ty "usbdev" props children next)]) room hnext hheap rfl rfl
      simp only [traverseLoop, if_pos hty, hvisit, traverseLoop_filler children _ hfill, ih]
      simp [elementsOf, hty]
    · simp only [if_neg hty, decide_eq_true_eq] at hnode
      subst hnode
      simp only [countElements, if_neg hty, Nat.zero_add] at hdev
      have ih := traverseLoop_usbdevs next s ds room hnext hheap hdev hlast
      simp only [traverseLoop, if_neg hty, ih]
      simp [elementsOf, hty]

theorem visitElement_default (ty : Nat) (props : List (String × String))
    (children next : xmlNode) (s : State) :
    ∃ s1, visitElement (xmlNode.node ty "default" props children next) s = some (false, s1) ∧
      s1.devices = s.devices ∧ s1.nr_devices = s.nr_devices ∧ s1.last = s.last ∧
      s1.heap_exhausted = s.heap_exhausted ∧
      s1.__default_baudrate = baudOfToken s.__default_baudrate (props.lookup "baudrate") := by
  have h1 : ¬ ("default" = "devices") := by decide
  have h2 : ¬ ("default" = "usbdev") := by decide
  refine ⟨(set_default_baudrate
      (xmlGetProp (xmlNode.node ty "default" props children next) "baudrate")
      (set_default_device
        (xmlGetProp (xmlNode.node ty "default" props children next) "device") s).2).2,
    by simp only [visitElement, if_neg h1, if_neg h2, if_true], ?_⟩
  have hdev : ∀ d, (set_default_device d s).2.devices = s.devices ∧
      (set_default_device d s).2.nr_devices = s.nr_devices ∧
      (set_default_device d s).2.last = s.last ∧
      (set_default_device d s).2.heap_exhausted = s.heap_exhausted ∧
      (set_default_device d s).2.__default_baudrate = s.__default_baudrate := by
    intro d
    cases d with
    | none => simp [set_default_device]
    | some x => cases hx : s.heap_exhausted <;> simp [set_default_device, hx]
  obtain ⟨e1, e2, e3, e4, e5⟩ :=
    hdev (xmlGetProp (xmlNode.node ty "default" props children next) "device")
  cases hb : xmlGetProp (xmlNode.node ty "default" props children next) "baudrate" with
  | none =>
    have hb1 : props.lookup "baudrate" = none := hb
    simp [set_default_baudrate, e1, e2, e3, e4, e5, hb1, baudOfToken]
  | some t =>
    have hb1 : props.lookup "baudrate" = some t := hb
    cases hl : termbitsLoop t termbits <;>
      simp [set_default_baudrate, e1, e2, e3, e4, hb1, baudOfToken, __termbits, e5, hl]

theorem traverseLoop_defaults :
    ∀ (c : xmlNode) (s : State), isDefaultsChain c = true →
      ∃ s1, traverseLoop c s = some s1 ∧ s1.devices = s.devices ∧
        s1.nr_devices = s.nr_devices ∧ s1.last = s.last ∧
        s1.heap_exhausted = s.heap_exhausted
  | xmlNode.null, s, _ => ⟨s, rfl, rfl, rfl, rfl, rfl⟩
  | xmlNode.node ty name props children next, s, h => by
    simp only [isDefaultsChain, Bool.and_eq_true] at h
    obtain ⟨hnode, hnext⟩ := h
    by_cases hty : ty = XML_ELEMENT_NODE
    · simp only [if_pos hty, Bool.and_eq_true, decide_eq_true_eq] at hnode
      obtain ⟨hname, hfill⟩ := hnode
      subst hname
      obtain ⟨s1, hv, e1, e2, e3, e4, _⟩ := visitElement_default ty props children next s
      obtain ⟨s2, ht, f1, f2, f3, f4⟩ := traverseLoop_defaults next s1 hnext
      refine ⟨s2, ?_, f1.trans e1, f2.trans e2, f3.trans e3, f4.trans e4⟩
      simp only [traverseLoop, if_pos hty, hv, traverseLoop_filler children _ hfill, ht]
    · simp only [if_neg hty, decide_eq_true_eq] at hnode
      subst hnode
      obtain ⟨s2, ht, f1, f2, f3, f4⟩ := traverseLoop_defaults next s hnext
      refine ⟨s2, ?_, f1, f2, f3, f4⟩
      simp only [traverseLoop, if_neg hty, ht]

theorem traverseLoop_body :
    ∀ (c : xmlNode) (s : State), isConfigBody c = true → s.heap_exhausted = false →
      poolTerminated s →
      ∃ s1, traverseLoop c s = some s1 ∧
        s1.devices = PoolPtr.live (poolOf (bodyProfiles c s.__default_baudrate) 0) ∧
        s1.nr_devices = (bodyProfiles c s.__default_baudrate).length ∧
        0 < s1.nr_devices ∧ s1.heap_exhausted = false
  | xmlNode.null, _, h, _, _ => by simp [isConfigBody] at h
  | xmlNode.node ty name props children next, s, h, hheap, hpool => by
    by_cases hty : ty = XML_ELEMENT_NODE
    · by_cases hname : name = "devices"
      · subst hname
        simp only [isConfigBody, if_pos hty, if_true, Bool.and_eq_true,
          decide_eq_true_eq] at h
        obtain ⟨⟨husb, hcount⟩, htail⟩ := h
        have hpos : (0 : Int) < (countElements children : Int) := by exact_mod_cast hcount
        obtain ⟨s1, hc, hdev, hnr, hlast, hh1, hb1, _⟩ :=
          create_pool_of_terminated (countElements children : Int) s hpos hheap hpool
        simp only [Int.toNat_ofNat] at hdev hnr
        have hvisit : visitElement (xmlNode.node ty "devices" props children next) s =
            some (false, s1) := by
          have h1 : ¬ ("devices" = "default") := by decide
          simp only [visitElement, if_neg h1, if_true, xmlChildElementCount, hc]
          simp
        have hdev0 : s1.devices = PoolPtr.live (poolOf [] (0 + countElements children)) := by
          rw [hdev, Nat.zero_add]
        have hkids := traverseLoop_usbdevs children s1 [] 0 husb hh1 hdev0 hlast
        obtain ⟨s3, ht, f1, f2, _, f4⟩ := traverseLoop_defaults next
          { s1 with
            devices := PoolPtr.live
              (poolOf ([] ++ (elementsOf children).map (entryProfile s1.__default_baudrate)) 0),
            last := ([] ++ (elementsOf children).map
              (entryProfile s1.__default_baudrate)).length } htail
        refine ⟨s3, ?_, ?_, ?_, ?_, ?_⟩
        · simp only [traverseLoop, if_pos hty, hvisit, hkids, ht]
        · rw [f1]
          simp [bodyProfiles, hty, hb1]
        · rw [f2]
          simp [bodyProfiles, hty, hnr, countElements_eq_length]
        · rw [f2]
          simp only [hnr]
          exact hcount
        · rw [f4]
          exact hh1
      · simp only [isConfigBody, if_pos hty, if_neg hname, Bool.and_eq_true,
          decide_eq_true_eq] at h
        obtain ⟨⟨hdef, hfill⟩, hnext⟩ := h
        subst hdef
        obtain ⟨s1, hv, e1, e2, e3, e4, e5⟩ := visitElement_default ty props children next s
        have hpool1 : poolTerminated s1 := by
          unfold poolTerminated
          rw [e1]
          exact hpool
        obtain ⟨s2, ht, g1, g2, g3, g4⟩ :=
          traverseLoop_body next s1 hnext (e4.trans hheap) hpool1
        refine ⟨s2, ?_, ?_, ?_, g3, g4⟩
        · simp only [traverseLoop, if_pos hty, hv, traverseLoop_filler children _ hfill, ht]
        · rw [g1, e5]
          simp [bodyProfiles, hty]
        · rw [g2, e5]
          simp [bodyProfiles, hty]
    · simp only [isConfigBody, if_neg hty, Bool.and_eq_true, decide_eq_true_eq] at h
      obtain ⟨hch, hnext⟩ := h
      subst hch
      obtain ⟨s2, ht, g1, g2, g3, g4⟩ := traverseLoop_body next s hnext hheap hpool
      refine ⟨s2, ?_, ?_, ?_, g3, g4⟩
      · simp only [traverseLoop, if_neg hty, ht]
      · rw [g1]
        simp [bodyProfiles, hty]
      · rw [g2]
        simp [bodyProfiles, hty]

theorem expectedScan_cons_none (profiles : List gpsdevice) (dev : libusb_device)
    (rest : List libusb_device) (h : firstProfile profiles dev = none) :
    expectedScan profiles (dev :: rest) = expectedScan profiles rest := by
  simp [expectedScan, List.findSome?_cons, h]

theorem expectedScan_cons_some (profiles : List gpsdevice) (dev : libusb_device)
    (rest : List libusb_device) (e : gpsdevice) (h : firstProfile profiles dev = some e) :
    expectedScan profiles (dev :: rest) =
      { ret := 0, devname := some (devicePath dev.bus_number dev.device_address),
        baudrate := some e.baudrate } := by
  simp [expectedScan, List.findSome?_cons, h]

theorem usbdevLoop_expected (s : State) (slots : List (Option gpsdevice))
    (hdev : s.devices = PoolPtr.live slots) (hterm : none ∈ slots)
    (hheap : s.heap_exhausted = false) :
    ∀ devs : List libusb_device,
      usbdevLoop s devs = some (expectedScan (registered slots) devs)
  | [] => rfl
  | dev :: rest => by
    have ih := usbdevLoop_expected s slots hdev hterm hheap rest
    cases hd : dev.descriptor with
    | none =>
      have hf : firstProfile (registered slots) dev = none := by simp [firstProfile, hd]
      rw [expectedScan_cons_none _ _ _ hf]
      simp only [usbdevLoop, hd, ih]
    | some ids =>
      obtain ⟨v, p⟩ := ids
      have hg : gps_lookup v p s = some (firstProfile (registered slots) dev) := by
        unfold gps_lookup
        rw [hdev]
        show lookupLoop v p slots = _
        rw [lookupLoop_registered v p slots hterm]
        simp [firstProfile, hd]
      cases hf : firstProfile (registered slots) dev with
      | none =>
        rw [hf] at hg
        rw [expectedScan_cons_none _ _ _ hf]
        simp only [usbdevLoop, hd, hg, ih]
      | some e =>
        rw [hf] at hg
        rw [expectedScan_cons_some _ _ _ e hf]
        simp [usbdevLoop, hd, hg, hheap]

theorem expectedScan_ret (profiles : List gpsdevice) :
    ∀ devs : List libusb_device,
      ((expectedScan profiles devs).ret = 0 ↔
        ∃ dev ∈ devs, ∃ e ∈ profiles, dev.descriptor = some (e.vid, e.pid))
  | [] => by simp [expectedScan, EINVAL]
  | dev :: rest => by
    have ih := expectedScan_ret profiles rest
    cases hf : firstProfile profiles dev with
    | none =>
      rw [expectedScan_cons_none _ _ _ hf, ih]
      have hno : ¬ ∃ e ∈ profiles, dev.descriptor = some (e.vid, e.pid) := by
        rintro ⟨e, he, hd⟩
        simp only [firstProfile, hd, List.find?_eq_none, decide_eq_true_eq] at hf
        exact hf e he ⟨rfl, rfl⟩
      constructor
      · rintro ⟨d, hd, h⟩
        exact ⟨d, List.mem_cons_of_mem _ hd, h⟩
      · rintro ⟨d, hd, h⟩
        rcases List.mem_cons.mp hd with hd | hd
        · subst hd
          exact absurd h hno
        · exact ⟨d, hd, h⟩
    | some e =>
      rw [expectedScan_cons_some _ _ _ e hf]
      simp only [true_iff]
      refine ⟨dev, List.mem_cons_self _ _, e, ?_, ?_⟩
      · cases hd : dev.descriptor with
        | none => simp [firstProfile, hd] at hf
        | some ids =>
          simp only [firstProfile, hd] at hf
          exact List.mem_of_find?_eq_some hf
      · cases hd : dev.descriptor with
        | none => simp [firstProfile, hd] at hf
        | some ids =>
          simp only [firstProfile, hd] at hf
          have hp := List.find?_some hf
          simp only [decide_eq_true_eq] at hp
          rw [hp.1, hp.2]

theorem read_usb_gps_list_document (root : xmlNode) (hdoc : isConfigDocument root = true) :
    ∃ s1, read_usb_gps_list (some root) initState = some ((s1.nr_devices : Int), s1) ∧
      s1.devices = PoolPtr.live (poolOf (configProfiles root) 0) ∧
      0 < s1.nr_devices ∧ s1.heap_exhausted = false := by
  cases root with
  | null => simp [isConfigDocument] at hdoc
  | node ty name props children next =>
    simp only [isConfigDocument, Bool.and_eq_true, decide_eq_true_eq] at hdoc
    obtain ⟨⟨⟨hty, hname⟩, hbody⟩, hfill⟩ := hdoc
    subst hname
    obtain ⟨s1, ht, hdev, _, hpos, hheap⟩ :=
      traverseLoop_body children initState hbody rfl (by simp [poolTerminated, initState])
    have hvisit : visitElement (xmlNode.node ty "odroid-gps" props children next) initState =
        some (false, initState) := by
      have h1 : ¬ ("odroid-gps" = "default") := by decide
      have h2 : ¬ ("odroid-gps" = "devices") := by decide
      have h3 : ¬ ("odroid-gps" = "usbdev") := by decide
      simp only [visitElement, if_neg h1, if_neg h2, if_neg h3]
    have hloop : traverseLoop (xmlNode.node ty "odroid-gps" props children next) initState =
        some s1 := by
      simp only [traverseLoop, if_pos hty, hvisit, ht, traverseLoop_filler next s1 hfill]
    refine ⟨s1, ?_, hdev, hpos, hheap⟩
    simp only [read_usb_gps_list, if_true, device_traverse_trees, hloop]

/-- C1: for every document of the documented schema (root element `odroid-gps`; below it
fillers and `default` elements around one `devices` element whose child elements are
k >= 1 `usbdev` elements with `vid` and `pid`) and every live enumeration, the scan from
the state at process start has a result; it returns 0 exactly when some live device has a
descriptor whose `(idVendor, idProduct)` is the hex-parsed `(vid, pid)` of some `usbdev`
entry; on success it stores the path of the first such live device and the baud rate of
the first entry with the ids of that device, as `expectedScan` says. -/
theorem scan_end_to_end (root : xmlNode) (devs : List libusb_device)
    (hdoc : isConfigDocument root = true) :
    ∃ r, scan_usb_gps_device (some root) (some devs) true true initState = some r ∧
      r.out = expectedScan (configProfiles root) devs ∧
      (r.out.ret = 0 ↔
        ∃ dev ∈ devs, ∃ e ∈ configProfiles root, dev.descriptor = some (e.vid, e.pid)) := by
  obtain ⟨s1, hread, hdev, hpos, hheap⟩ := read_usb_gps_list_document root hdoc
  have hterm : none ∈ poolOf (configProfiles root) 0 := by simp [poolOf]
  have hpool : poolTerminated s1 := by
    unfold poolTerminated
    rw [hdev]
    exact hterm
  obtain ⟨s2, hrel, _, _, _⟩ := release_pool_of_terminated s1 hpool
  have hnr : (0 : Int) < (s1.nr_devices : Int) := by exact_mod_cast hpos
  have hlookup : (if 0 < (devs.length : Int) then usbdev_lookup devs true true s1
      else some { ret := -EINVAL, devname := none, baudrate := none }) =
      some (expectedScan (configProfiles root) devs) := by
    cases devs with
    | nil => rfl
    | cons d ds =>
      have hlen : (0 : Int) < ((d :: ds).length : Int) := by
        simp only [List.length_cons]
        omega
      rw [if_pos hlen]
      simp only [usbdev_lookup, Bool.true_eq_false, or_self, if_false]
      rw [usbdevLoop_expected s1 _ hdev hterm hheap, registered_poolOf]
  refine ⟨{ out := expectedScan (configProfiles root) devs,
            usb_calls := [UsbCall.init, UsbCall.get_device_list, UsbCall.free_device_list,
              UsbCall.exit],
            state := (set_default_device none { s2 with devices := PoolPtr.null }).2 },
    ?_, rfl, expectedScan_ret _ _⟩
  simp only [scan_usb_gps_device, hread, if_pos hnr, hlookup, hrel]

/-- A document with white space, a `default` element and one `usbdev` entry. -/
def sampleDocument : xmlNode :=
  xmlNode.node XML_ELEMENT_NODE "odroid-gps" []
    (xmlNode.node 3 "text" [] xmlNode.null
      (xmlNode.node XML_ELEMENT_NODE "default" [("device", "/dev/ttyACM0"), ("baudrate", "4800")]
        xmlNode.null
        (xmlNode.node XML_ELEMENT_NODE "devices" []
          (xmlNode.node 3 "text" [] xmlNode.null
            (xmlNode.node XML_ELEMENT_NODE "usbdev"
              [("vid", "1546"), ("pid", "01a7"), ("baudrate", "9600")] xmlNode.null
              xmlNode.null))
          xmlNode.null)))
    xmlNode.null

theorem scan_end_to_end_witness :
    isConfigDocument sampleDocument = true ∧
    (∃ r, scan_usb_gps_device (some sampleDocument)
        (some [{ descriptor := some (0x1546, 0x01A7), bus_number := 1, device_address := 7 }])
        true true initState = some r ∧
      r.out = expectedScan (configProfiles sampleDocument)
        [{ descriptor := some (0x1546, 0x01A7), bus_number := 1, device_address := 7 }] ∧
      (r.out.ret = 0 ↔
        ∃ dev ∈ [({ descriptor := some (0x1546, 0x01A7), bus_number := 1,
                    device_address := 7 } : libusb_device)],
          ∃ e ∈ configProfiles sampleDocument, dev.descriptor = some (e.vid, e.pid))) ∧
    expectedScan (configProfiles sampleDocument)
        [{ descriptor := some (0x1546, 0x01A7), bus_number := 1, device_address := 7 }] =
      { ret := 0, devname := some "/dev/bus/usb/001/007", baudrate := some B9600 } :=
  ⟨by decide, scan_end_to_end sampleDocument _ (by decide), by decide⟩

/-! ## Invariants of the traversal and of the scan -/

/-- The pool pointer and the two counters agree: without a pool both counters are 0, a
live pool has a positive capacity, and the pointer does not dangle. -/
def poolCounted (s : State) : Prop :=
  match s.devices with
  | PoolPtr.null => s.nr_devices = 0 ∧ s.last = 0
  | PoolPtr.live _ => 0 < s.nr_devices
  | PoolPtr.freed => False

/-- The baud rate is a value of the table `termbits`. -/
def inTable (b : Nat) : Prop := b = B2400 ∨ b = B4800 ∨ b = B9600

/-- The default baud rate and the baud rate of every record in the pool are table
values. -/
def tableBauds (s : State) : Prop :=
  inTable s.__default_baudrate ∧
    ∀ slots, s.devices = PoolPtr.live slots → ∀ d, some d ∈ slots → inTable d.baudrate

/-- The states the process can be in between two scans: the state at process start, the
state a scan leaves behind, and either of them after the allocator ran out of memory or
recovered. -/
inductive Reachable : State → Prop where
  | start : Reachable initState
  | heap (s : State) (b : Bool) : Reachable s → Reachable { s with heap_exhausted := b }
  | scan (s : State) (doc : Option xmlNode) (usb : Option (List libusb_device))
      (devnameOut baudrateOut : Bool) (r : ScanResult) :
      Reachable s → scan_usb_gps_device doc usb devnameOut baudrateOut s = some r →
      Reachable r.state

/-- The registry is unset and the default device is absent. -/
def atRest (s : State) : Prop :=
  s.devices = PoolPtr.null ∧ s.nr_devices = 0 ∧ s.last = 0 ∧ s.__default_device = none

theorem visitElement_preserves (P : State → Prop)
    (hdev : ∀ d s, P s → P (set_default_device d s).2)
    (hbaud : ∀ b s, P s → P (set_default_baudrate b s).2)
    (hpool : ∀ n s ret s1, P s → __device_create_pool n s = some (ret, s1) → P s1)
    (hadd : ∀ node s ret s1, P s → __device_add node s = some (ret, s1) → P s1)
    (curr : xmlNode) (s : State) (b : Bool) (s1 : State) (hs : P s)
    (h : visitElement curr s = some (b, s1)) : P s1 := by
  cases curr with
  | null =>
    simp only [visitElement, Option.some.injEq, Prod.mk.injEq] at h
    rw [← h.2]
    exact hs
  | node ty name props children next =>
    have hs1 : P (if name = "default" then
        (set_default_baudrate (xmlGetProp (xmlNode.node ty name props children next) "baudrate")
          (set_default_device
            (xmlGetProp (xmlNode.node ty name props children next) "device") s).2).2
        else s) := by
      by_cases hn : name = "default"
      · rw [if_pos hn]
        exact hbaud _ _ (hdev _ _ hs)
      · rw [if_neg hn]
        exact hs
    simp only [visitElement] at h
    by_cases hd : name = "devices"
    · rw [if_pos hd] at h
      split at h
      · simp at h
      · rename_i ret s2 hc
        simp only [Option.some.injEq, Prod.mk.injEq] at h
        rw [← h.2]
        exact hpool _ _ _ _ hs1 hc
    · rw [if_neg hd] at h
      by_cases hu : name = "usbdev"
      · rw [if_pos hu] at h
        split at h
        · simp at h
        · rename_i ret s2 hc
          simp only [Option.some.injEq, Prod.mk.injEq] at h
          rw [← h.2]
          exact hadd _ _ _ _ hs1 hc
      · rw [if_neg hu] at h
        simp only [Option.some.injEq, Prod.mk.injEq] at h
        rw [← h.2]
        exact hs1

theorem traverseLoop_preserves (P : State → Prop)
    (hvisit : ∀ curr s b s1, P s → visitElement curr s = some (b, s1) → P s1) :
    ∀ (c : xmlNode) (s s1 : State), P s → traverseLoop c s = some s1 → P s1
  | xmlNode.null, s, s1, hs, h => by
    simp only [traverseLoop, Option.some.injEq] at h
    rw [← h]
    exact hs
  | xmlNode.node ty name props children next, s, s1, hs, h => by
    simp only [traverseLoop] at h
    split at h
    · simp at h
    · rename_i s2 hb
      simp only [Option.some.injEq] at h
      rw [← h]
      by_cases hty : ty = XML_ELEMENT_NODE
      · rw [if_pos hty] at hb
        exact hvisit _ _ _ _ hs hb
      · rw [if_neg hty] at hb
        simp only [Option.some.injEq, Prod.mk.injEq] at hb
        exact absurd hb.1 (by decide)
    · rename_i s2 hb
      have hs2 : P s2 := by
        by_cases hty : ty = XML_ELEMENT_NODE
        · rw [if_pos hty] at hb
          exact hvisit _ _ _ _ hs hb
        · rw [if_neg hty] at hb
          simp only [Option.some.injEq, Prod.mk.injEq] at hb
          rw [← hb.2]
          exact hs
      split at h
      · simp at h
      · rename_i s3 hc
        exact traverseLoop_preserves P hvisit next s3 s1
          (traverseLoop_preserves P hvisit children s2 s3 hs2 hc) h

theorem read_usb_gps_list_preserves (P : State → Prop)
    (hvisit : ∀ curr s b s1, P s → visitElement curr s = some (b, s1) → P s1)
    (doc : Option xmlNode) (s : State) (nr : Int) (s1 : State) (hs : P s)
    (h : read_usb_gps_list doc s = some (nr, s1)) :
    P s1 ∧ (nr = (s1.nr_devices : Int) ∨ (nr = -EINVAL ∧ s1 = s)) := by
  cases doc with
  | none =>
    simp only [read_usb_gps_list, Option.some.injEq, Prod.mk.injEq] at h
    rw [← h.2]
    exact ⟨hs, Or.inr ⟨h.1.symm, rfl⟩⟩
  | some root =>
    cases root with
    | null =>
      simp only [read_usb_gps_list, Option.some.injEq, Prod.mk.injEq] at h
      rw [← h.2]
      exact ⟨hs, Or.inr ⟨h.1.symm, rfl⟩⟩
    | node ty name props children next =>
      simp only [read_usb_gps_list] at h
      by_cases hn : name = "odroid-gps"
      · rw [if_pos hn] at h
        simp only [device_traverse_trees] at h
        cases ht : traverseLoop (xmlNode.node ty name props children next) s with
        | none => simp [ht] at h
        | some s2 =>
          simp only [ht, Option.some.injEq, Prod.mk.injEq] at h
          rw [← h.2]
          exact ⟨traverseLoop_preserves P hvisit _ s s2 hs ht, Or.inl (by rw [← h.1, h.2])⟩
      · rw [if_neg hn] at h
        simp only [Option.some.injEq, Prod.mk.injEq] at h
        rw [← h.2]
        exact ⟨hs, Or.inl h.1.symm⟩

theorem poolCounted_visit (curr : xmlNode) (s : State) (b : Bool) (s1 : State)
    (hs : poolCounted s) (h : visitElement curr s = some (b, s1)) : poolCounted s1 := by
  refine visitElement_preserves poolCounted ?_ ?_ ?_ ?_ curr s b s1 hs h
  · intro d s hs
    cases d with
    | none => exact hs
    | some x =>
      unfold set_default_device
      cases s.heap_exhausted <;> exact hs
  · intro b s hs
    cases b <;> exact hs
  · intro n s ret s1 hs h
    unfold __device_create_pool at h
    by_cases hn : 0 ≥ n
    · rw [if_pos hn] at h
      simp only [Option.some.injEq, Prod.mk.injEq] at h
      rw [← h.2]
      exact hs
    · rw [if_neg hn] at h
      cases hr : __device_release_pool s with
      | none => simp [hr] at h
      | some s2 =>
        have h2 : s2.devices = PoolPtr.null → s2.nr_devices = 0 ∧ s2.last = 0 := by
          intro hnull
          unfold __device_release_pool at hr
          cases hd : s.devices with
          | null =>
            simp only [hd, Option.some.injEq] at hr
            rw [← hr]
            unfold poolCounted at hs
            rw [hd] at hs
            exact hs
          | freed => simp [hd] at hr
          | live slots =>
            simp only [hd] at hr
            cases he : releaseEntries slots with
            | none => simp [he] at hr
            | some u =>
              simp only [he, Option.some.injEq] at hr
              rw [← hr] at hnull
              simp at hnull
        have h3 : s2.devices ≠ PoolPtr.null → s2.nr_devices = 0 ∧ s2.last = 0 := by
          intro hnn
          unfold __device_release_pool at hr
          cases hd : s.devices with
          | null =>
            simp only [hd, Option.some.injEq] at hr
            rw [← hr] at hnn
            exact absurd hd hnn
          | freed => simp [hd] at hr
          | live slots =>
            simp only [hd] at hr
            cases he : releaseEntries slots with
            | none => simp [he] at hr
            | some u =>
              simp only [he, Option.some.injEq] at hr
              rw [← hr]
              exact ⟨rfl, rfl⟩
        have h4 : s2.nr_devices = 0 ∧ s2.last = 0 := by
          by_cases hnull : s2.devices = PoolPtr.null
          · exact h2 hnull
          · exact h3 hnull
        simp only [hr] at h
        by_cases hx : s2.heap_exhausted = true
        · simp only [hx, if_true, Option.some.injEq, Prod.mk.injEq] at h
          rw [← h.2]
          exact h4
        · simp only [hx, Option.some.injEq, Prod.mk.injEq] at h
          simp at h
          rw [← h.2]
          show 0 < n.toNat
          omega
  · intro node s ret s1 hs h
    unfold __device_add at h
    cases node with
    | null =>
      simp only [Option.some.injEq, Prod.mk.injEq] at h
      rw [← h.2]
      exact hs
    | node ty name props children next =>
      simp only at h
      split at h
      · rename_i vid pid hv hp
        by_cases hx : s.heap_exhausted = true
        · simp only [hx, if_true, Option.some.injEq, Prod.mk.injEq] at h
          rw [← h.2]
          exact hs
        · simp only [hx] at h
          cases hd : s.devices with
          | null => simp [hd] at h
          | freed => simp [hd] at h
          | live slots =>
            simp only [hd] at h
            by_cases hl : s.last < slots.length
            · simp only [if_pos hl] at h
              simp at h
              rw [← h.2]
              unfold poolCounted at hs
              rw [hd] at hs
              exact hs
            · simp [if_neg hl] at h
      · simp only [Option.some.injEq, Prod.mk.injEq] at h
        rw [← h.2]
        exact hs

theorem release_pool_counted (s s2 : State) (hs : poolCounted s)
    (h : __device_release_pool s = some s2) :
    s2.nr_devices = 0 ∧ s2.last = 0 ∧ s2.__default_baudrate = s.__default_baudrate ∧
      s2.heap_exhausted = s.heap_exhausted := by
  unfold __device_release_pool at h
  unfold poolCounted at hs
  cases hd : s.devices with
  | null =>
    rw [hd] at hs
    simp only [hd, Option.some.injEq] at h
    rw [← h]
    exact ⟨hs.1, hs.2, rfl, rfl⟩
  | freed => simp [hd] at h
  | live slots =>
    simp only [hd] at h
    cases he : releaseEntries slots with
    | none => simp [he] at h
    | some u =>
      simp only [he, Option.some.injEq] at h
      rw [← h]
      exact ⟨rfl, rfl, rfl, rfl⟩

theorem scan_inv (doc : Option xmlNode) (usb : Option (List libusb_device))
    (devnameOut baudrateOut : Bool) (s : State) (r : ScanResult)
    (h : scan_usb_gps_device doc usb devnameOut baudrateOut s = some r) :
    ∃ nr s1 s2, read_usb_gps_list doc s = some (nr, s1) ∧
      __device_release_pool s1 = some s2 ∧
      r.state = { s2 with devices := PoolPtr.null, __default_device := none } ∧
      (r.usb_calls ≠ [] → 0 < nr) ∧
      (r.out.ret = 0 → ∃ devs, usbdev_lookup devs devnameOut baudrateOut s1 = some r.out) := by
  unfold scan_usb_gps_device at h
  cases hr : read_usb_gps_list doc s with
  | none => simp [hr] at h
  | some p =>
    obtain ⟨nr, s1⟩ := p
    simp only [hr] at h
    split at h
    · simp at h
    · rename_i out calls hf
      cases hrel : __device_release_pool s1 with
      | none => simp [hrel] at h
      | some s2 =>
        simp only [hrel, Option.some.injEq] at h
        refine ⟨nr, s1, s2, rfl, hrel, by rw [← h]; rfl, ?_, ?_⟩
        · intro hc
          by_contra hnr
          rw [if_neg hnr] at hf
          simp only [Option.some.injEq, Prod.mk.injEq] at hf
          rw [← h] at hc
          exact hc hf.2.symm
        · intro hret
          rw [← h] at hret
          simp only at hret
          by_cases hnr : 0 < nr
          · rw [if_pos hnr] at hf
            cases usb with
            | none => simp at hf
            | some devs =>
              simp only at hf
              by_cases hl : 0 < (devs.length : Int)
              · rw [if_pos hl] at hf
                cases hu : usbdev_lookup devs devnameOut baudrateOut s1 with
                | none => simp [hu] at hf
                | some o =>
                  simp only [hu, Option.some.injEq, Prod.mk.injEq] at hf
                  refine ⟨devs, ?_⟩
                  rw [hu, ← h, hf.1]
              · rw [if_neg hl] at hf
                simp only [Option.some.injEq, Prod.mk.injEq] at hf
                rw [← hf.1] at hret
                simp [EINVAL] at hret
          · rw [if_neg hnr] at hf
            simp only [Option.some.injEq, Prod.mk.injEq] at hf
            rw [← hf.1] at hret
            simp [EINVAL] at hret

theorem scan_leaves_atRest (doc : Option xmlNode) (usb : Option (List libusb_device))
    (devnameOut baudrateOut : Bool) (s : State) (r : ScanResult) (hs : poolCounted s)
    (h : scan_usb_gps_device doc usb devnameOut baudrateOut s = some r) : atRest r.state := by
  obtain ⟨nr, s1, s2, hread, hrel, hstate, _, _⟩ :=
    scan_inv doc usb devnameOut baudrateOut s r h
  have hs1 := (read_usb_gps_list_preserves poolCounted poolCounted_visit doc s nr s1 hs hread).1
  obtain ⟨h1, h2, _, _⟩ := release_pool_counted s1 s2 hs1 hrel
  rw [hstate]
  exact ⟨rfl, h1, h2, rfl⟩

theorem reachable_atRest (s : State) (h : Reachable s) : atRest s := by
  induction h with
  | start => exact ⟨rfl, rfl, rfl, rfl⟩
  | heap s b _ ih => exact ih
  | scan s doc usb dn br r _ hscan ih =>
    have hc : poolCounted s := by
      unfold poolCounted
      rw [ih.1]
      exact ⟨ih.2.1, ih.2.2.1⟩
    exact scan_leaves_atRest doc usb dn br s r hc hscan

theorem poolCounted_of_atRest (s : State) (h : atRest s) : poolCounted s := by
  unfold poolCounted
  rw [h.1]
  exact ⟨h.2.1, h.2.2.1⟩

/-- C14: whatever the configuration document and the USB outcome, when
`scan_usb_gps_device`, started in a state the process can be in between scans, returns,
the pool pointer is `NULL`, `nr_devices` is 0, `last` is 0 and `__default_device` is
`NULL`, whether the scan returned 0 or not. -/
theorem scan_cleanup (s : State) (doc : Option xmlNode) (usb : Option (List libusb_device))
    (devnameOut baudrateOut : Bool) (r : ScanResult) (hs : Reachable s)
    (h : scan_usb_gps_device doc usb devnameOut baudrateOut s = some r) :
    r.state.devices = PoolPtr.null ∧ r.state.nr_devices = 0 ∧ r.state.last = 0 ∧
      r.state.__default_device = none :=
  scan_leaves_atRest doc usb devnameOut baudrateOut s r
    (poolCounted_of_atRest s (reachable_atRest s hs)) h

/-- A live device with the ids of the entry of `sampleDocument`. -/
def matchingDevice : libusb_device :=
  { descriptor := some (0x1546, 0x01A7), bus_number := 1, device_address := 7 }

/-- A live device with ids that `sampleDocument` does not list. -/
def otherDevice : libusb_device :=
  { descriptor := some (0x1d6b, 0x0002), bus_number := 1, device_address := 2 }

/-- The state a scan of `sampleDocument` at process start leaves behind. -/
def afterSampleScan : State := { initState with __default_baudrate := B4800 }

/-- The failure result of a scan that did not find a device. -/
def notFound : ScanOut := { ret := -EINVAL, devname := none, baudrate := none }

/-- The libusb calls of a scan that found a positive `nr_devices`. -/
def allUsbCalls : List UsbCall :=
  [UsbCall.init, UsbCall.get_device_list, UsbCall.free_device_list, UsbCall.exit]

theorem scan_cleanup_witness :
    (scan_usb_gps_device (some sampleDocument) (some [matchingDevice]) true true initState =
        some { out := { ret := 0, devname := some "/dev/bus/usb/001/007",
                        baudrate := some B9600 },
               usb_calls := allUsbCalls, state := afterSampleScan } ∧
      afterSampleScan.devices = PoolPtr.null ∧ afterSampleScan.nr_devices = 0 ∧
      afterSampleScan.last = 0 ∧ afterSampleScan.__default_device = none) ∧
    (scan_usb_gps_device (some sampleDocument) (some [otherDevice]) true true initState =
        some { out := notFound, usb_calls := allUsbCalls, state := afterSampleScan } ∧
      afterSampleScan.devices = PoolPtr.null ∧ afterSampleScan.nr_devices = 0 ∧
      afterSampleScan.last = 0 ∧ afterSampleScan.__default_device = none) ∧
    (scan_usb_gps_device (some sampleDocument) (some []) true true initState =
        some { out := notFound, usb_calls := allUsbCalls, state := afterSampleScan } ∧
      afterSampleScan.devices = PoolPtr.null ∧ afterSampleScan.nr_devices = 0 ∧
      afterSampleScan.last = 0 ∧ afterSampleScan.__default_device = none) ∧
    (scan_usb_gps_device none (some [matchingDevice]) true true initState =
        some { out := notFound, usb_calls := [], state := initState } ∧
      initState.devices = PoolPtr.null ∧ initState.nr_devices = 0 ∧
      initState.last = 0 ∧ initState.__default_device = none) :=
  ⟨⟨by decide, scan_cleanup initState (some sampleDocument) (some [matchingDevice]) true true
      { out := { ret := 0, devname := some "/dev/bus/usb/001/007", baudrate := some B9600 },
        usb_calls := allUsbCalls, state := afterSampleScan } Reachable.start (by decide)⟩,
   ⟨by decide, scan_cleanup initState (some sampleDocument) (some [otherDevice]) true true
      { out := notFound, usb_calls := allUsbCalls, state := afterSampleScan }
      Reachable.start (by decide)⟩,
   ⟨by decide, scan_cleanup initState (some sampleDocument) (some []) true true
      { out := notFound, usb_calls := allUsbCalls, state := afterSampleScan }
      Reachable.start (by decide)⟩,
   ⟨by decide, scan_cleanup initState none (some [matchingDevice]) true true
      { out := notFound, usb_calls := [], state := initState } Reachable.start (by decide)⟩⟩

theorem state_eq_of_atRest (s : State) (h : atRest s) :
    ({ s with devices := PoolPtr.null, __default_device := none } : State) = s := by
  obtain ⟨h1, _, _, h4⟩ := h
  cases s
  simp only at h1 h4
  subst h1
  subst h4
  rfl

/-- C12: in a state the process can be in between scans (process start, or after any
scans), a document whose root element is not named `odroid-gps` is ignored:
`read_usb_gps_list` returns 0 and leaves the state as it was (no pool, nothing registered),
and `scan_usb_gps_device` returns `-EINVAL`, stores nothing, makes no libusb call and
leaves the state as it was. -/
theorem wrong_root_ignored (s : State) (ty : Nat) (name : String)
    (props : List (String × String)) (children next : xmlNode)
    (usb : Option (List libusb_device)) (devnameOut baudrateOut : Bool)
    (hs : Reachable s) (hname : name ≠ "odroid-gps") :
    read_usb_gps_list (some (xmlNode.node ty name props children next)) s = some (0, s) ∧
    s.devices = PoolPtr.null ∧ s.last = 0 ∧
    scan_usb_gps_device (some (xmlNode.node ty name props children next)) usb devnameOut
        baudrateOut s =
      some { out := { ret := -EINVAL, devname := none, baudrate := none },
             usb_calls := [], state := s } := by
  have hrest := reachable_atRest s hs
  have hread : read_usb_gps_list (some (xmlNode.node ty name props children next)) s =
      some (0, s) := by
    simp only [read_usb_gps_list, if_neg hname, hrest.2.1]
    rfl
  have hrel : __device_release_pool s = some s := by
    simp only [__device_release_pool, hrest.1]
  refine ⟨hread, hrest.1, hrest.2.2.1, ?_⟩
  simp only [scan_usb_gps_device, hread, hrel, lt_self_iff_false, if_false, set_default_device,
    state_eq_of_atRest s hrest]

/-- A document of the schema under another root element name. -/
def wrongRootDocument : xmlNode :=
  xmlNode.node XML_ELEMENT_NODE "gps" []
    (xmlNode.node XML_ELEMENT_NODE "devices" [] sampleUsbdev xmlNode.null) xmlNode.null

theorem wrong_root_ignored_witness :
    (read_usb_gps_list (some wrongRootDocument) initState = some (0, initState) ∧
      initState.devices = PoolPtr.null ∧ initState.last = 0 ∧
      scan_usb_gps_device (some wrongRootDocument) (some [matchingDevice]) true true
          initState =
        some { out := { ret := -EINVAL, devname := none, baudrate := none },
               usb_calls := [], state := initState }) ∧
    (read_usb_gps_list (some wrongRootDocument) afterSampleScan = some (0, afterSampleScan) ∧
      afterSampleScan.devices = PoolPtr.null ∧ afterSampleScan.last = 0 ∧
      scan_usb_gps_device (some wrongRootDocument) (some [matchingDevice]) true true
          afterSampleScan =
        some { out := { ret := -EINVAL, devname := none, baudrate := none },
               usb_calls := [], state := afterSampleScan }) :=
  ⟨wrong_root_ignored initState XML_ELEMENT_NODE "gps" []
      (xmlNode.node XML_ELEMENT_NODE "devices" [] sampleUsbdev xmlNode.null) xmlNode.null
      (some [matchingDevice]) true true Reachable.start (by decide),
   wrong_root_ignored afterSampleScan XML_ELEMENT_NODE "gps" []
      (xmlNode.node XML_ELEMENT_NODE "devices" [] sampleUsbdev xmlNode.null) xmlNode.null
      (some [matchingDevice]) true true
      (Reachable.scan initState (some sampleDocument) (some [matchingDevice]) true true
        { out := { ret := 0, devname := some "/dev/bus/usb/001/007", baudrate := some B9600 },
          usb_calls := allUsbCalls, state := afterSampleScan } Reachable.start (by decide))
      (by decide)⟩

theorem create_pool_fields (n : Int) (s : State) (ret : Int) (s1 : State)
    (h : __device_create_pool n s = some (ret, s1)) :
    s1.__default_baudrate = s.__default_baudrate ∧ s1.heap_exhausted = s.heap_exhausted ∧
      (s1.devices = s.devices ∨ s1.devices = PoolPtr.null ∨
        s1.devices = PoolPtr.live (List.replicate (n.toNat + 1) none)) := by
  unfold __device_create_pool at h
  by_cases hn : 0 ≥ n
  · rw [if_pos hn] at h
    simp only [Option.some.injEq, Prod.mk.injEq] at h
    rw [← h.2]
    exact ⟨rfl, rfl, Or.inl rfl⟩
  · rw [if_neg hn] at h
    cases hr : __device_release_pool s with
    | none => simp [hr] at h
    | some s2 =>
      have h2 : s2.__default_baudrate = s.__default_baudrate ∧
          s2.heap_exhausted = s.heap_exhausted := by
        unfold __device_release_pool at hr
        cases hd : s.devices with
        | null =>
          simp only [hd, Option.some.injEq] at hr
          rw [← hr]
          exact ⟨rfl, rfl⟩
        | freed => simp [hd] at hr
        | live slots =>
          simp only [hd] at hr
          cases he : releaseEntries slots with
          | none => simp [he] at hr
          | some u =>
            simp only [he, Option.some.injEq] at hr
            rw [← hr]
            exact ⟨rfl, rfl⟩
      simp only [hr] at h
      by_cases hx : s2.heap_exhausted = true
      · simp only [hx, if_true, Option.some.injEq, Prod.mk.injEq] at h
        rw [← h.2]
        exact ⟨h2.1, by show true = s.heap_exhausted; rw [← h2.2, hx], Or.inr (Or.inl rfl)⟩
      · have hx1 : s2.heap_exhausted = false := by simpa using hx
        simp only [hx] at h
        simp at h
        rw [← h.2]
        exact ⟨h2.1, by show false = s.heap_exhausted; rw [← h2.2, hx1],
          Or.inr (Or.inr rfl)⟩

theorem device_add_fields (node : xmlNode) (s : State) (ret : Int) (s1 : State)
    (h : __device_add node s = some (ret, s1)) :
    s1.__default_baudrate = s.__default_baudrate ∧ s1.heap_exhausted = s.heap_exhausted ∧
      (s1.devices = s.devices ∨
        ∃ slots vid pid baud, s.devices = PoolPtr.live slots ∧
          s1.devices = PoolPtr.live (slots.set s.last (some (newDevice vid pid baud s)))) := by
  unfold __device_add at h
  cases node with
  | null =>
    simp only [Option.some.injEq, Prod.mk.injEq] at h
    rw [← h.2]
    exact ⟨rfl, rfl, Or.inl rfl⟩
  | node ty name props children next =>
    simp only at h
    split at h
    · rename_i vid pid hv hp
      by_cases hx : s.heap_exhausted = true
      · simp only [hx, if_true, Option.some.injEq, Prod.mk.injEq] at h
        rw [← h.2]
        exact ⟨rfl, rfl, Or.inl rfl⟩
      · have hx1 : s.heap_exhausted = false := by simpa using hx
        simp only [hx] at h
        cases hd : s.devices with
        | null => simp [hd] at h
        | freed => simp [hd] at h
        | live slots =>
          simp only [hd] at h
          by_cases hl : s.last < slots.length
          · simp only [if_pos hl] at h
            simp at h
            rw [← h.2]
            exact ⟨rfl, by show false = s.heap_exhausted; rw [hx1],
              Or.inr ⟨slots, vid, pid, _, rfl, rfl⟩⟩
          · simp [if_neg hl] at h
    · simp only [Option.some.injEq, Prod.mk.injEq] at h
      rw [← h.2]
      exact ⟨rfl, rfl, Or.inl rfl⟩

theorem termbits_cases (str : Option String) (s : State) :
    __termbits str s = s.__default_baudrate ∨ inTable (__termbits str s) := by
  unfold __termbits
  cases str with
  | none => exact Or.inl rfl
  | some t =>
    simp only [termbits, termbitsLoop]
    by_cases h1 : "2400" = t
    · simp [h1, inTable]
    · by_cases h2 : "4800" = t
      · simp [h1, h2, inTable]
      · by_cases h3 : "9600" = t
        · simp [h1, h2, h3, inTable]
        · simp [h1, h2, h3]

theorem inTable_termbits (str : Option String) (s : State) (h : inTable s.__default_baudrate) :
    inTable (__termbits str s) := by
  rcases termbits_cases str s with h1 | h1
  · rw [h1]; exact h
  · exact h1

theorem nameof_of_inTable (b : Nat) (h : inTable b) : nameof_termbits b ≠ "unknown" := by
  rcases h with h | h | h <;> subst h <;> decide

theorem tableBauds_visit (curr : xmlNode) (s : State) (b : Bool) (s1 : State)
    (hs : tableBauds s) (h : visitElement curr s = some (b, s1)) : tableBauds s1 := by
  refine visitElement_preserves tableBauds ?_ ?_ ?_ ?_ curr s b s1 hs h
  · intro d s hs
    cases d with
    | none => exact hs
    | some x =>
      unfold set_default_device
      cases s.heap_exhausted <;> exact hs
  · intro b s hs
    cases b with
    | none => exact hs
    | some t => exact ⟨inTable_termbits (some t) s hs.1, hs.2⟩
  · intro n s ret s1 hs h
    obtain ⟨hb, _, hd⟩ := create_pool_fields n s ret s1 h
    refine ⟨by rw [hb]; exact hs.1, ?_⟩
    intro slots hl d hmem
    rcases hd with hd | hd | hd
    · exact hs.2 slots (by rw [← hd]; exact hl) d hmem
    · rw [hd] at hl; simp at hl
    · rw [hd] at hl
      simp only [PoolPtr.live.injEq] at hl
      rw [← hl] at hmem
      simp [List.mem_replicate] at hmem
  · intro node s ret s1 hs h
    obtain ⟨hb, _, hd⟩ := device_add_fields node s ret s1 h
    refine ⟨by rw [hb]; exact hs.1, ?_⟩
    intro slots hl d hmem
    rcases hd with hd | ⟨slots0, vid, pid, baud, h0, h1⟩
    · exact hs.2 slots (by rw [← hd]; exact hl) d hmem
    · rw [h1] at hl
      simp only [PoolPtr.live.injEq] at hl
      rw [← hl] at hmem
      rcases List.mem_or_eq_of_mem_set hmem with hm | hm
      · exact hs.2 slots0 h0 d hm
      · simp only [Option.some.injEq] at hm
        rw [hm]
        exact inTable_termbits baud s hs.1

/-! ## The scan gate, and the default baud rate across scans -/

/-- A document whose only `usbdev` entry lacks `pid`: the pool is created with capacity 1
and nothing is registered. -/
def nothingRegisteredDocument : xmlNode :=
  xmlNode.node XML_ELEMENT_NODE "odroid-gps" []
    (xmlNode.node XML_ELEMENT_NODE "devices" []
      (usbdevElement [("vid", "1546")] xmlNode.null) xmlNode.null)
    xmlNode.null

/-- C11, as stated, fails: after the traversal of `nothingRegisteredDocument` the registry
holds zero profiles (cursor 0, every slot `NULL`), yet `read_usb_gps_list` returns the
capacity 1 and the scan calls `libusb_init`, `libusb_get_device_list`,
`libusb_free_device_list` and `libusb_exit` before it fails. -/
theorem scan_touches_usb_with_nothing_registered :
    read_usb_gps_list (some nothingRegisteredDocument) initState =
      some (1, { initState with devices := PoolPtr.live [none, none], nr_devices := 1,
                                last := 0 }) ∧
    registered [none, none] = [] ∧
    scan_usb_gps_device (some nothingRegisteredDocument) (some [matchingDevice]) true true
        initState =
      some { out := notFound,
             usb_calls := [UsbCall.init, UsbCall.get_device_list, UsbCall.free_device_list,
               UsbCall.exit],
             state := initState } := by
  decide

/-- C11, amended: when the traversal of the configuration leaves the capacity
`nr_devices` at 0 (no pool was allocated), the scan, started in a state the process can
be in between scans, returns `-EINVAL`, stores nothing and makes no libusb call. -/
theorem scan_skips_usb_without_capacity (s : State) (doc : Option xmlNode)
    (usb : Option (List libusb_device)) (devnameOut baudrateOut : Bool) (nr : Int)
    (s1 : State) (hs : Reachable s) (hread : read_usb_gps_list doc s = some (nr, s1))
    (hcap : s1.nr_devices = 0) :
    ∃ r, scan_usb_gps_device doc usb devnameOut baudrateOut s = some r ∧
      r.out = { ret := -EINVAL, devname := none, baudrate := none } ∧ r.usb_calls = [] := by
  have hc := poolCounted_of_atRest s (reachable_atRest s hs)
  obtain ⟨hc1, hnr⟩ :=
    read_usb_gps_list_preserves poolCounted poolCounted_visit doc s nr s1 hc hread
  have hnot : ¬ (0 < nr) := by
    rcases hnr with h | ⟨h, _⟩
    · rw [h, hcap]; decide
    · rw [h]; decide
  have hnull : s1.devices = PoolPtr.null := by
    unfold poolCounted at hc1
    cases hd : s1.devices with
    | null => rfl
    | freed => simp [hd] at hc1
    | live slots =>
      rw [hd] at hc1
      simp only at hc1
      omega
  have hrel : __device_release_pool s1 = some s1 := by
    simp only [__device_release_pool, hnull]
  refine ⟨{ out := { ret := -EINVAL, devname := none, baudrate := none }, usb_calls := [],
            state := (set_default_device none { s1 with devices := PoolPtr.null }).2 },
    ?_, rfl, rfl⟩
  simp only [scan_usb_gps_device, hread, if_neg hnot, hrel]

/-- A document whose `devices` element has no child element: no pool is allocated. -/
def zeroCapacityDocument : xmlNode :=
  xmlNode.node XML_ELEMENT_NODE "odroid-gps" []
    (xmlNode.node XML_ELEMENT_NODE "devices" [] xmlNode.null xmlNode.null) xmlNode.null

theorem scan_skips_usb_without_capacity_witness :
    read_usb_gps_list (some zeroCapacityDocument) initState = some (0, initState) ∧
    ∃ r, scan_usb_gps_device (some zeroCapacityDocument) (some [matchingDevice]) true true
        initState = some r ∧
      r.out = { ret := -EINVAL, devname := none, baudrate := none } ∧ r.usb_calls = [] :=
  ⟨by decide,
   scan_skips_usb_without_capacity initState (some zeroCapacityDocument)
     (some [matchingDevice]) true true 0 initState Reachable.start (by decide) rfl⟩

/-- C13, as stated, fails: the scan of `sampleDocument`, whose `default` element names
`4800`, leaves the default baud rate at `B4800`, not at `B9600`, and an absent baud token
then parses to `B4800`. -/
theorem default_baudrate_not_reset :
    scan_usb_gps_device (some sampleDocument) (some [matchingDevice]) true true initState =
      some { out := { ret := 0, devname := some "/dev/bus/usb/001/007",
                      baudrate := some B9600 },
             usb_calls := allUsbCalls, state := afterSampleScan } ∧
    afterSampleScan.__default_baudrate = B4800 ∧
    afterSampleScan.__default_baudrate ≠ B9600 ∧
    __termbits none afterSampleScan = B4800 := by
  decide

theorem scan_default_baudrate (s : State) (doc : Option xmlNode)
    (usb : Option (List libusb_device)) (devnameOut baudrateOut : Bool) (r : ScanResult)
    (h : scan_usb_gps_device doc usb devnameOut baudrateOut s = some r) :
    ∃ nr s1, read_usb_gps_list doc s = some (nr, s1) ∧
      r.state.__default_baudrate = s1.__default_baudrate := by
  obtain ⟨nr, s1, s2, hread, hrel, hstate, _, _⟩ :=
    scan_inv doc usb devnameOut baudrateOut s r h
  have hb2 : s2.__default_baudrate = s1.__default_baudrate := by
    unfold __device_release_pool at hrel
    cases hd : s1.devices with
    | null =>
      simp only [hd, Option.some.injEq] at hrel
      rw [← hrel]
    | freed => simp [hd] at hrel
    | live slots =>
      simp only [hd] at hrel
      cases he : releaseEntries slots with
      | none => simp [he] at hrel
      | some u =>
        simp only [he, Option.some.injEq] at hrel
        rw [← hrel]
  exact ⟨nr, s1, hread, by rw [hstate]; exact hb2⟩

theorem baudStays_visit (b0 : Nat) (curr : xmlNode) (s : State) (b : Bool) (s1 : State)
    (hs : s.__default_baudrate = b0 ∨ inTable s.__default_baudrate)
    (h : visitElement curr s = some (b, s1)) :
    s1.__default_baudrate = b0 ∨ inTable s1.__default_baudrate := by
  refine visitElement_preserves
    (fun t => t.__default_baudrate = b0 ∨ inTable t.__default_baudrate)
    ?_ ?_ ?_ ?_ curr s b s1 hs h
  · intro d s hs
    cases d with
    | none => exact hs
    | some x =>
      unfold set_default_device
      cases s.heap_exhausted <;> exact hs
  · intro b s hs
    cases b with
    | none => exact hs
    | some t =>
      show __termbits (some t) s = b0 ∨ inTable (__termbits (some t) s)
      rcases termbits_cases (some t) s with h1 | h1
      · rw [h1]; exact hs
      · exact Or.inr h1
  · intro n s ret s1 hs h
    rw [(create_pool_fields n s ret s1 h).1]
    exact hs
  · intro node s ret s1 hs h
    rw [(device_add_fields node s ret s1 h).1]
    exact hs

/-- C13, amended: a scan does not reset the default baud rate.  When
`scan_usb_gps_device` returns, the default baud rate is the value the traversal of that
scan's configuration left: the value from before the scan or a table value set by a
`default` element; an absent or unknown baud token then parses to that value. -/
theorem scan_keeps_default_baudrate (s : State) (doc : Option xmlNode)
    (usb : Option (List libusb_device)) (devnameOut baudrateOut : Bool) (r : ScanResult)
    (h : scan_usb_gps_device doc usb devnameOut baudrateOut s = some r) :
    ∃ nr s1, read_usb_gps_list doc s = some (nr, s1) ∧
      r.state.__default_baudrate = s1.__default_baudrate ∧
      (r.state.__default_baudrate = s.__default_baudrate ∨
        inTable r.state.__default_baudrate) ∧
      __termbits none r.state = s1.__default_baudrate ∧
      ∀ token, termbitsLoop token termbits = none →
        __termbits (some token) r.state = s1.__default_baudrate := by
  obtain ⟨nr, s1, hread, hb⟩ := scan_default_baudrate s doc usb devnameOut baudrateOut r h
  have hstay := (read_usb_gps_list_preserves
    (fun t => t.__default_baudrate = s.__default_baudrate ∨ inTable t.__default_baudrate)
    (baudStays_visit s.__default_baudrate) doc s nr s1 (Or.inl rfl) hread).1
  refine ⟨nr, s1, hread, hb, by rw [hb]; exact hstay, by simp [__termbits, hb], ?_⟩
  intro token ht
  simp [__termbits, ht, hb]

theorem scan_keeps_default_baudrate_witness :
    ∃ nr s1, read_usb_gps_list (some sampleDocument) initState = some (nr, s1) ∧
      afterSampleScan.__default_baudrate = s1.__default_baudrate ∧
      (afterSampleScan.__default_baudrate = initState.__default_baudrate ∨
        inTable afterSampleScan.__default_baudrate) ∧
      __termbits none afterSampleScan = s1.__default_baudrate ∧
      ∀ token, termbitsLoop token termbits = none →
        __termbits (some token) afterSampleScan = s1.__default_baudrate :=
  scan_keeps_default_baudrate initState (some sampleDocument) (some [matchingDevice]) true
    true
    { out := { ret := 0, devname := some "/dev/bus/usb/001/007", baudrate := some B9600 },
      usb_calls := allUsbCalls, state := afterSampleScan } (by decide)

theorem lookupLoop_mem (vid pid : Nat) (g : gpsdevice) :
    ∀ slots : List (Option gpsdevice), lookupLoop vid pid slots = some (some g) →
      some g ∈ slots
  | [], h => by simp [lookupLoop] at h
  | none :: _, h => by simp [lookupLoop] at h
  | some d :: rest, h => by
    by_cases hm : d.vid = vid ∧ d.pid = pid
    · simp only [lookupLoop, if_pos hm, Option.some.injEq] at h
      rw [h]
      exact List.mem_cons_self _ _
    · simp only [lookupLoop, if_neg hm] at h
      exact List.mem_cons_of_mem _ (lookupLoop_mem vid pid g rest h)

theorem reachable_tableBauds (s : State) (h : Reachable s) : tableBauds s := by
  induction h with
  | start =>
    refine ⟨Or.inr (Or.inr rfl), ?_⟩
    intro slots hl
    simp [initState] at hl
  | heap s b _ ih => exact ih
  | scan s doc usb dn br r _ hscan ih =>
    obtain ⟨nr, s1, hread, hb⟩ := scan_default_baudrate s doc usb dn br r hscan
    have h1 := (read_usb_gps_list_preserves tableBauds tableBauds_visit doc s nr s1 ih
      (by exact hread)).1
    obtain ⟨_, _, s2, _, _, hstate, _, _⟩ := scan_inv doc usb dn br s r hscan
    refine ⟨by rw [hb]; exact h1.1, ?_⟩
    intro slots hl
    rw [hstate] at hl
    simp at hl

/-- C20: in every state the process can be in between scans, whatever the configuration
documents of the scans were, the default baud rate is `B2400`, `B4800` or `B9600`; the
record `__device_add` makes there has a table baud rate; after the traversal of any
configuration every record in the pool has a table baud rate, for which `nameof_termbits`
does not return `unknown`; and a scan that returns 0 stores a table baud rate, for which
`nameof_termbits` does not return `unknown`. -/
theorem baud_values_in_table (s : State) (hs : Reachable s) :
    inTable s.__default_baudrate ∧
    (∀ vid pid baudrate, inTable (newDevice vid pid baudrate s).baudrate) ∧
    (∀ doc nr s1, read_usb_gps_list doc s = some (nr, s1) →
      inTable s1.__default_baudrate ∧
      ∀ slots d, s1.devices = PoolPtr.live slots → some d ∈ slots →
        inTable d.baudrate ∧ nameof_termbits d.baudrate ≠ "unknown") ∧
    (∀ doc usb devnameOut baudrateOut r,
      scan_usb_gps_device doc usb devnameOut baudrateOut s = some r → r.out.ret = 0 →
      ∃ b, r.out.baudrate = some b ∧ inTable b ∧ nameof_termbits b ≠ "unknown") := by
  have ht := reachable_tableBauds s hs
  have hread : ∀ doc nr s1, read_usb_gps_list doc s = some (nr, s1) → tableBauds s1 :=
    fun doc nr s1 h =>
      (read_usb_gps_list_preserves tableBauds tableBauds_visit doc s nr s1 ht h).1
  refine ⟨ht.1, fun vid pid baudrate => inTable_termbits baudrate s ht.1, ?_, ?_⟩
  · intro doc nr s1 h
    refine ⟨(hread doc nr s1 h).1, ?_⟩
    intro slots d hl hmem
    have hd := (hread doc nr s1 h).2 slots hl d hmem
    exact ⟨hd, nameof_of_inTable _ hd⟩
  · intro doc usb dn br r hscan hret
    obtain ⟨nr, s1, s2, hr, _, _, _, hfound⟩ := scan_inv doc usb dn br s r hscan
    obtain ⟨devs, hlookup⟩ := hfound hret
    have h1 := hread doc nr s1 hr
    unfold usbdev_lookup at hlookup
    by_cases hflags : dn = false ∨ br = false
    · rw [if_pos hflags] at hlookup
      simp only [Option.some.injEq] at hlookup
      rw [← hlookup] at hret
      simp [EINVAL] at hret
    · rw [if_neg hflags] at hlookup
      obtain ⟨pre, dev, post, v, p, g, _, _, _, hg, hout⟩ :=
        usbdevLoop_success_split s1 r.out devs hlookup hret
      have hmem : ∃ slots, s1.devices = PoolPtr.live slots ∧ some g ∈ slots := by
        unfold gps_lookup at hg
        cases hd : s1.devices with
        | null => simp [hd] at hg
        | freed => simp [hd] at hg
        | live slots =>
          rw [hd] at hg
          exact ⟨slots, rfl, lookupLoop_mem v p g slots hg⟩
      obtain ⟨slots, hl, hm⟩ := hmem
      have hgt := h1.2 slots hl g hm
      exact ⟨g.baudrate, by rw [hout], hgt, nameof_of_inTable _ hgt⟩

theorem baud_values_in_table_witness :
    inTable afterSampleScan.__default_baudrate ∧
    (∀ vid pid baudrate, inTable (newDevice vid pid baudrate afterSampleScan).baudrate) ∧
    (∀ doc nr s1, read_usb_gps_list doc afterSampleScan = some (nr, s1) →
      inTable s1.__default_baudrate ∧
      ∀ slots d, s1.devices = PoolPtr.live slots → some d ∈ slots →
        inTable d.baudrate ∧ nameof_termbits d.baudrate ≠ "unknown") ∧
    (∀ doc usb devnameOut baudrateOut r,
      scan_usb_gps_device doc usb devnameOut baudrateOut afterSampleScan = some r →
      r.out.ret = 0 →
      ∃ b, r.out.baudrate = some b ∧ inTable b ∧ nameof_termbits b ≠ "unknown") :=
  baud_values_in_table afterSampleScan
    (Reachable.scan initState (some sampleDocument) (some [matchingDevice]) true true
      { out := { ret := 0, devname := some "/dev/bus/usb/001/007", baudrate := some B9600 },
        usb_calls := allUsbCalls, state := afterSampleScan } Reachable.start (by decide))

/-! ## Cursor and capacity -/

/-- A `devices` element with one child element, a `usbdev` entry that has a `usbdev`
entry as its own child. -/
def nestedUsbdevTree : xmlNode :=
  xmlNode.node XML_ELEMENT_NODE "devices" []
    (xmlNode.node XML_ELEMENT_NODE "usbdev"
      [("vid", "1546"), ("pid", "01a7"), ("baudrate", "9600")] sampleUsbdev xmlNode.null)
    xmlNode.null

/-- C15: the cursor does exceed the capacity.  After `__device_create_pool(2)` and three
`__device_add` calls the cursor is 3 and the capacity 2; and `device_traverse_trees` over
`nestedUsbdevTree` returns 0 with cursor 2 and capacity 1, the terminating slot
overwritten. -/
theorem cursor_exceeds_capacity :
    addEach [sampleUsbdev, sampleUsbdev, sampleUsbdev]
        { initState with devices := PoolPtr.live [none, none, none], nr_devices := 2 } =
      some ([0, 0, 0], { initState with
        devices := PoolPtr.live [some sampleDevice, some sampleDevice, some sampleDevice],
        nr_devices := 2, last := 3 }) ∧
    __device_create_pool 2 initState =
      some (0, { initState with devices := PoolPtr.live [none, none, none],
                                nr_devices := 2 }) ∧
    device_traverse_trees nestedUsbdevTree initState =
      some (0, { initState with
        devices := PoolPtr.live [some sampleDevice, some sampleDevice],
        nr_devices := 1, last := 2 }) ∧
    ¬ ((3 : Nat) ≤ 2) ∧ ¬ ((2 : Nat) ≤ 1) := by
  decide

/-! ## The order of the traversal -/

/-- The element nodes of a tree in pre-order (document order): a node, then the nodes
below it, then its following siblings. -/
def preorderElements : xmlNode → List xmlNode
  | xmlNode.null => []
  | xmlNode.node ty name props children next =>
    (if ty = XML_ELEMENT_NODE then [xmlNode.node ty name props children next] else [])
      ++ (preorderElements children ++ preorderElements next)

/-- The element nodes of a tree in the order "a node, then its following siblings, then
the nodes below it". -/
def siblingsFirstElements : xmlNode → List xmlNode
  | xmlNode.null => []
  | xmlNode.node ty name props children next =>
    (if ty = XML_ELEMENT_NODE then [xmlNode.node ty name props children next] else [])
      ++ (siblingsFirstElements next ++ siblingsFirstElements children)

/-- The profiles of the `usbdev` elements of a list of nodes, in the order of the list. -/
def usbdevProfiles (dflt : Nat) (nodes : List xmlNode) : List gpsdevice :=
  (nodes.filter (fun n =>
    match n with
    | xmlNode.null => false
    | xmlNode.node _ name _ _ _ => decide (name = "usbdev"))).map (entryProfile dflt)

/-- Runs the element body of the loop on each node of a list in turn, and stops at the
first `break`. -/
def visitEach : List xmlNode → State → Option (Bool × State)
  | [], s => some (false, s)
  | node :: rest, s =>
    match visitElement node s with
    | none => none
    | some (true, s1) => some (true, s1)
    | some (false, s1) => visitEach rest s1

/-- A `devices` element with two child elements: a `group` element that holds one
`usbdev` entry, and after it a second `usbdev` entry. -/
def groupedTree : xmlNode :=
  xmlNode.node XML_ELEMENT_NODE "devices" []
    (xmlNode.node XML_ELEMENT_NODE "group" []
      (usbdevElement [("vid", "1111"), ("pid", "0001"), ("baudrate", "2400")] xmlNode.null)
      (usbdevElement [("vid", "2222"), ("pid", "0002"), ("baudrate", "4800")] xmlNode.null))
    xmlNode.null

/-- C16, as stated, fails: in `groupedTree` the `group` element has a child and a
following sibling, and the traversal inserts the child entry (1111:0001) before the
following sibling (2222:0002): the insertion order is the pre-order, and it is not the
siblings-first order. -/
theorem traversal_is_preorder_on_groupedTree :
    device_traverse_trees groupedTree initState =
      some (0, { initState with
        devices := PoolPtr.live
          [some { vid := 0x1111, pid := 0x0001, baudrate := B2400 },
           some { vid := 0x2222, pid := 0x0002, baudrate := B4800 }, none],
        nr_devices := 2, last := 2 }) ∧
    usbdevProfiles B9600 (preorderElements groupedTree) =
      [{ vid := 0x1111, pid := 0x0001, baudrate := B2400 },
       { vid := 0x2222, pid := 0x0002, baudrate := B4800 }] ∧
    usbdevProfiles B9600 (siblingsFirstElements groupedTree) =
      [{ vid := 0x2222, pid := 0x0002, baudrate := B4800 },
       { vid := 0x1111, pid := 0x0001, baudrate := B2400 }] := by
  decide

theorem visitEach_append (b : List xmlNode) :
    ∀ (a : List xmlNode) (s s1 : State), visitEach (a ++ b) s = some (false, s1) →
      ∃ t, visitEach a s = some (false, t) ∧ visitEach b t = some (false, s1)
  | [], s, s1, h => ⟨s, rfl, h⟩
  | n :: a, s, s1, h => by
    simp only [List.cons_append, visitEach] at h
    cases hv : visitElement n s with
    | none => simp [hv] at h
    | some p =>
      obtain ⟨brk, t0⟩ := p
      cases brk with
      | true => simp [hv] at h
      | false =>
        simp only [hv] at h
        obtain ⟨t, h1, h2⟩ := visitEach_append b a t0 s1 h
        exact ⟨t, by simp only [visitEach, hv, h1], h2⟩

/-- C16, amended: `device_traverse_trees` runs the element body on a node, then descends
into the children of that node, and only then moves to the following sibling: whenever
running the element body on the element nodes in pre-order meets no `break`, the loop
ends in the same state. -/
theorem traversal_is_preorder :
    ∀ (c : xmlNode) (s s1 : State),
      visitEach (preorderElements c) s = some (false, s1) → traverseLoop c s = some s1
  | xmlNode.null, s, s1, h => by
    simp only [preorderElements, visitEach, Option.some.injEq, Prod.mk.injEq, true_and] at h
    rw [← h]
    rfl
  | xmlNode.node ty name props children next, s, s1, h => by
    simp only [preorderElements] at h
    obtain ⟨t1, h1, h23⟩ := visitEach_append _ _ s s1 h
    obtain ⟨t2, h2, h3⟩ := visitEach_append _ _ t1 s1 h23
    have ihc := traversal_is_preorder children t1 t2 h2
    have ihn := traversal_is_preorder next t2 s1 h3
    by_cases hty : ty = XML_ELEMENT_NODE
    · rw [if_pos hty] at h1
      simp only [visitEach] at h1
      cases hv : visitElement (xmlNode.node ty name props children next) s with
      | none => simp [hv] at h1
      | some p =>
        obtain ⟨brk, t0⟩ := p
        cases brk with
        | true => simp [hv] at h1
        | false =>
          simp only [hv, Option.some.injEq, Prod.mk.injEq, true_and] at h1
          subst h1
          simp only [traverseLoop, if_pos hty, hv, ihc, ihn]
    · rw [if_neg hty] at h1
      simp only [visitEach, Option.some.injEq, Prod.mk.injEq, true_and] at h1
      subst h1
      simp only [traverseLoop, if_neg hty, ihc, ihn]

theorem traversal_is_preorder_witness :
    visitEach (preorderElements groupedTree) initState =
      some (false, { initState with
        devices := PoolPtr.live
          [some { vid := 0x1111, pid := 0x0001, baudrate := B2400 },
           some { vid := 0x2222, pid := 0x0002, baudrate := B4800 }, none],
        nr_devices := 2, last := 2 }) ∧
    traverseLoop groupedTree initState =
      some { initState with
        devices := PoolPtr.live
          [some { vid := 0x1111, pid := 0x0001, baudrate := B2400 },
           some { vid := 0x2222, pid := 0x0002, baudrate := B4800 }, none],
        nr_devices := 2, last := 2 } :=
  ⟨by decide, traversal_is_preorder groupedTree initState _ (by decide)⟩

/-! ## A `devices` element whose pool cannot be created -/

/-- A `devices` element with the one entry `sampleUsbdev`, followed by `next`. -/
def populatedDevices (next : xmlNode) : xmlNode :=
  xmlNode.node XML_ELEMENT_NODE "devices" [] sampleUsbdev next

/-- A `devices` element without children, followed by `next`. -/
def emptyDevices (next : xmlNode) : xmlNode :=
  xmlNode.node XML_ELEMENT_NODE "devices" [] xmlNode.null next

/-- The state after the traversal of `populatedDevices` at process start. -/
def sampleRegistered : State :=
  { initState with devices := PoolPtr.live [some sampleDevice, none], nr_devices := 1,
                   last := 1 }

/-- C17, as stated, fails: an empty `devices` element followed by a populated `devices`
element leaves the registry unset, although the populated element alone fills it; the
scan of such a document does not find the matching live device and touches no USB. -/
theorem later_sibling_not_processed :
    traverseLoop (populatedDevices xmlNode.null) initState = some sampleRegistered ∧
    traverseLoop (emptyDevices (populatedDevices xmlNode.null)) initState =
      some initState ∧
    scan_usb_gps_device
        (some (xmlNode.node XML_ELEMENT_NODE "odroid-gps" []
          (emptyDevices (populatedDevices xmlNode.null)) xmlNode.null))
        (some [matchingDevice]) true true initState =
      some { out := notFound, usb_calls := [], state := initState } := by
  decide

/-- C17, amended: when `__device_create_pool` fails at a `devices` element, the loop over
the sibling chain of that element is left with `break`: the traversal of the chain ends in
the state the failed call left, whatever the children and the following siblings of the
element are; the loop of the parent node goes on with the following siblings of the
parent. -/
theorem create_pool_failure_leaves_loop (props : List (String × String))
    (children next : xmlNode) (s s2 : State) (ret : Int)
    (hfail : __device_create_pool
      (xmlChildElementCount (xmlNode.node XML_ELEMENT_NODE "devices" props children next)) s =
      some (ret, s2))
    (hret : ret < 0) :
    traverseLoop (xmlNode.node XML_ELEMENT_NODE "devices" props children next) s = some s2 ∧
    ∀ (pname : String) (pprops : List (String × String)) (pnext : xmlNode),
      pname ≠ "default" → pname ≠ "devices" → pname ≠ "usbdev" →
      traverseLoop (xmlNode.node XML_ELEMENT_NODE pname pprops
        (xmlNode.node XML_ELEMENT_NODE "devices" props children next) pnext) s =
        traverseLoop pnext s2 := by
  have h1 : ¬ ("devices" = "default") := by decide
  have hvisit : visitElement (xmlNode.node XML_ELEMENT_NODE "devices" props children next) s =
      some (true, s2) := by
    simp only [visitElement, if_neg h1, if_true, hfail, gt_iff_lt, hret, decide_True]
  have hloop : traverseLoop (xmlNode.node XML_ELEMENT_NODE "devices" props children next) s =
      some s2 := by
    simp only [traverseLoop, if_true, hvisit]
  refine ⟨hloop, ?_⟩
  intro pname pprops pnext hp1 hp2 hp3
  have hpv : visitElement (xmlNode.node XML_ELEMENT_NODE pname pprops
      (xmlNode.node XML_ELEMENT_NODE "devices" props children next) pnext) s =
      some (false, s) := by
    simp only [visitElement, if_neg hp1, if_neg hp2, if_neg hp3]
  rw [traverseLoop]
  simp only [if_true, hpv, hloop]

theorem create_pool_failure_leaves_loop_witness :
    (traverseLoop (emptyDevices (populatedDevices xmlNode.null)) initState = some initState ∧
      ∀ (pname : String) (pprops : List (String × String)) (pnext : xmlNode),
        pname ≠ "default" → pname ≠ "devices" → pname ≠ "usbdev" →
        traverseLoop (xmlNode.node XML_ELEMENT_NODE pname pprops
          (emptyDevices (populatedDevices xmlNode.null)) pnext) initState =
          traverseLoop pnext initState) ∧
    __device_create_pool (xmlChildElementCount (emptyDevices (populatedDevices xmlNode.null)))
      initState = some (-22, initState) :=
  ⟨create_pool_failure_leaves_loop [] xmlNode.null (populatedDevices xmlNode.null) initState
      initState (-22) (by decide) (by decide),
   by decide⟩

theorem gps_lookup_finds_registered (s : State) (ds : List gpsdevice) (room : Nat)
    (hdev : s.devices = PoolPtr.live (poolOf ds room)) (e : gpsdevice) (he : e ∈ ds) :
    ∃ g, gps_lookup e.vid e.pid s = some (some g) ∧ g.vid = e.vid ∧ g.pid = e.pid := by
  have hl : gps_lookup e.vid e.pid s =
      some (ds.find? (fun d => decide (d.vid = e.vid ∧ d.pid = e.pid))) := by
    unfold gps_lookup
    rw [hdev]
    exact lookupLoop_poolOf e.vid e.pid room ds
  cases hf : ds.find? (fun d => decide (d.vid = e.vid ∧ d.pid = e.pid)) with
  | none =>
    have hnone := List.find?_eq_none.mp hf e he
    simp at hnone
  | some g =>
    have hp := List.find?_some hf
    simp only [decide_eq_true_eq] at hp
    exact ⟨g, by rw [hl, hf], hp.1, hp.2⟩

/-- C19: `__device_create_pool(n)` with `n <= 0` leaves the whole state (pool, entries,
capacity, cursor) as it was; and the traversal of a populated `devices` element followed
by a `devices` element without child elements ends with the profiles of the first element
in the pool, where `gps_lookup` finds each of them. -/
theorem create_pool_failure_keeps_registry :
    (∀ (n : Int) (s : State), n ≤ 0 →
      (__device_create_pool n s).map Prod.snd = some s) ∧
    (∀ (s : State) (props1 props2 : List (String × String))
        (children1 children2 rest : xmlNode),
      s.heap_exhausted = false → poolTerminated s →
      isUsbdevChain children1 = true → 0 < countElements children1 →
      countElements children2 = 0 →
      ∃ s1, traverseLoop (xmlNode.node XML_ELEMENT_NODE "devices" props1 children1
          (xmlNode.node XML_ELEMENT_NODE "devices" props2 children2 rest)) s = some s1 ∧
        s1.devices = PoolPtr.live
          (poolOf ((elementsOf children1).map (entryProfile s.__default_baudrate)) 0) ∧
        s1.last = countElements children1 ∧ s1.nr_devices = countElements children1 ∧
        ∀ e ∈ (elementsOf children1).map (entryProfile s.__default_baudrate),
          ∃ g, gps_lookup e.vid e.pid s1 = some (some g) ∧ g.vid = e.vid ∧
            g.pid = e.pid) := by
  constructor
  · intro n s hn
    unfold __device_create_pool
    simp [hn]
  · intro s props1 props2 children1 children2 rest hheap hpool husb hcount hzero
    have hpos : (0 : Int) < (countElements children1 : Int) := by exact_mod_cast hcount
    obtain ⟨s0, hc, hdev, hnr, hlast, hh0, hb0, _⟩ :=
      create_pool_of_terminated (countElements children1 : Int) s hpos hheap hpool
    simp only [Int.toNat_ofNat] at hdev hnr
    have h1 : ¬ ("devices" = "default") := by decide
    have hvisit1 : visitElement (xmlNode.node XML_ELEMENT_NODE "devices" props1 children1
        (xmlNode.node XML_ELEMENT_NODE "devices" props2 children2 rest)) s =
        some (false, s0) := by
      simp only [visitElement, if_neg h1, if_true, xmlChildElementCount, hc]
      simp
    have hdev0 : s0.devices = PoolPtr.live (poolOf [] (0 + countElements children1)) := by
      rw [hdev, Nat.zero_add]
    have hkids := traverseLoop_usbdevs children1 s0 [] 0 husb hh0 hdev0 hlast
    have hvisit2 : ∀ t : State,
        visitElement (xmlNode.node XML_ELEMENT_NODE "devices" props2 children2 rest) t =
        some (true, t) := by
      intro t
      simp only [visitElement, if_neg h1, if_true, xmlChildElementCount, hzero,
        __device_create_pool]
      simp [EINVAL]
    refine ⟨{ s0 with
        devices := PoolPtr.live
          (poolOf ([] ++ (elementsOf children1).map (entryProfile s0.__default_baudrate)) 0),
        last := ([] ++ (elementsOf children1).map
          (entryProfile s0.__default_baudrate)).length }, ?_, ?_, ?_, ?_, ?_⟩
    · rw [traverseLoop]
      simp only [if_true, hvisit1, hkids]
      rw [traverseLoop]
      simp only [if_true, hvisit2]
    · simp [hb0]
    · simp [countElements_eq_length]
    · simp [hnr]
    · intro e he
      exact gps_lookup_finds_registered _ _ 0 (by simp [hb0]) e he

theorem create_pool_failure_keeps_registry_witness :
    ((0 : Int) ≤ 0 ∧ (__device_create_pool 0 sampleRegistered).map Prod.snd =
      some sampleRegistered) ∧
    ∃ s1, traverseLoop (populatedDevices (emptyDevices xmlNode.null)) initState = some s1 ∧
      s1.devices = PoolPtr.live
        (poolOf ((elementsOf sampleUsbdev).map (entryProfile initState.__default_baudrate)) 0) ∧
      s1.last = countElements sampleUsbdev ∧ s1.nr_devices = countElements sampleUsbdev ∧
      ∀ e ∈ (elementsOf sampleUsbdev).map (entryProfile initState.__default_baudrate),
        ∃ g, gps_lookup e.vid e.pid s1 = some (some g) ∧ g.vid = e.vid ∧ g.pid = e.pid :=
  ⟨⟨by decide, create_pool_failure_keeps_registry.1 0 sampleRegistered (by decide)⟩,
   create_pool_failure_keeps_registry.2 initState [] [] sampleUsbdev xmlNode.null
     xmlNode.null rfl (by simp [poolTerminated, initState]) (by decide) (by decide)
     (by decide)⟩

/-! ## Safety of the traversal on well-formed trees -/

/-- Where a sibling chain sits: outside every `devices` element, as the children of a
`devices` element, or deeper below a `devices` element. -/
inductive Place where
  | outside
  | childOfDevices
  | below
deriving DecidableEq, Repr

/-- Every `usbdev` element of the chain and below it is an immediate child of a `devices`
element, and no `devices` element lies below a `devices` element; `place` says where the
chain itself sits. -/
def wellPlaced : Place → xmlNode → Bool
  | _, xmlNode.null => true
  | place, xmlNode.node ty name _ children next =>
    (if ty = XML_ELEMENT_NODE ∧ name = "devices" then
       decide (place = Place.outside) && wellPlaced Place.childOfDevices children
     else if ty = XML_ELEMENT_NODE ∧ name = "usbdev" then
       decide (place = Place.childOfDevices) && wellPlaced Place.below children
     else wellPlaced (if place = Place.outside then Place.outside else Place.below) children)
    && wellPlaced place next

/-- The cursor does not exceed the capacity and, when there is a pool, the block has
`nr_devices + 1` slots of which the one at index `nr_devices` is `NULL`. -/
def registryIntact (s : State) : Bool :=
  match s.devices with
  | PoolPtr.null => decide (s.last ≤ s.nr_devices)
  | PoolPtr.live slots =>
    decide (s.last ≤ s.nr_devices) && decide (slots.length = s.nr_devices + 1) &&
      decide (slots.get? s.nr_devices = some none)
  | PoolPtr.freed => false

/-- There is a pool and the cursor is strictly below the capacity. -/
def insertionInRange (s : State) : Bool :=
  match s.devices with
  | PoolPtr.live _ => decide (s.last < s.nr_devices)
  | _ => false

/-- The element body of the loop under watch: undefined when a `usbdev` element is
reached without a pool or with the cursor not strictly below the capacity, else as
`visitElement`. -/
def visitElementStrict (curr : xmlNode) (s : State) : Option (Bool × State) :=
  match curr with
  | xmlNode.null => visitElement curr s
  | xmlNode.node _ name _ _ _ =>
    if name = "usbdev" ∧ insertionInRange s = false then none else visitElement curr s

/-- The loop of `device_traverse_trees` under watch: as `traverseLoop`, and undefined as
soon as the registry is not intact at the start of a round or at the end of the loop, or
an insertion is out of range. -/
def traverseLoopStrict : xmlNode → State → Option State
  | xmlNode.null, s => if registryIntact s then some s else none
  | xmlNode.node ty name props children next, s =>
    if registryIntact s = false then none
    else
      match (if ty = XML_ELEMENT_NODE then
               visitElementStrict (xmlNode.node ty name props children next) s
             else some (false, s)) with
      | none => none
      | some (true, s1) => if registryIntact s1 then some s1 else none
      | some (false, s1) =>
        match traverseLoopStrict children s1 with
        | none => none
        | some s2 => traverseLoopStrict next s2

/-- The state holds the records `ds` in a pool with `room` unused record slots. -/
def holds (s : State) (ds : List gpsdevice) (room : Nat) : Prop :=
  s.devices = PoolPtr.live (poolOf ds room) ∧ s.last = ds.length ∧
    s.nr_devices = ds.length + room

/-- The pool is absent with the cursor within the capacity, or holds some records with
the terminating slot in place. -/
def poolSafe (s : State) : Prop :=
  (s.devices = PoolPtr.null ∧ s.last ≤ s.nr_devices) ∨ ∃ ds room, holds s ds room

/-- The pool and the two counters of both states are the same. -/
def samePool (s s1 : State) : Prop :=
  s1.devices = s.devices ∧ s1.nr_devices = s.nr_devices ∧ s1.last = s.last ∧
    s1.heap_exhausted = s.heap_exhausted

theorem poolOf_length (ds : List gpsdevice) (room : Nat) :
    (poolOf ds room).length = ds.length + room + 1 := by
  simp [poolOf, Nat.add_assoc]

theorem poolOf_terminator (ds : List gpsdevice) (room : Nat) :
    (poolOf ds room).get? (ds.length + room) = some none := by
  unfold poolOf
  rw [List.get?_eq_getElem?, List.getElem?_append_right (by simp)]
  simp

theorem registryIntact_of_holds (s : State) (ds : List gpsdevice) (room : Nat)
    (h : holds s ds room) : registryIntact s = true := by
  obtain ⟨hd, hl, hn⟩ := h
  unfold registryIntact
  rw [hd]
  simp only [hl, hn, poolOf_length, poolOf_terminator, Nat.le_add_right, decide_True,
    Bool.and_self]

theorem registryIntact_of_poolSafe (s : State) (h : poolSafe s) : registryIntact s = true := by
  rcases h with ⟨hd, hl⟩ | ⟨ds, room, hh⟩
  · unfold registryIntact
    rw [hd]
    simpa using hl
  · exact registryIntact_of_holds s ds room hh

theorem traverseLoop_of_strict :
    ∀ (c : xmlNode) (s s1 : State), traverseLoopStrict c s = some s1 →
      traverseLoop c s = some s1
  | xmlNode.null, s, s1, h => by
    simp only [traverseLoopStrict] at h
    split at h
    · simpa [traverseLoop] using h
    · simp at h
  | xmlNode.node ty name props children next, s, s1, h => by
    simp only [traverseLoopStrict] at h
    split at h
    · simp at h
    · have hbody : ∀ r, (if ty = XML_ELEMENT_NODE then
            visitElementStrict (xmlNode.node ty name props children next) s
          else some (false, s)) = some r →
          (if ty = XML_ELEMENT_NODE then
            visitElement (xmlNode.node ty name props children next) s
          else some (false, s)) = some r := by
        intro r hr
        by_cases hty : ty = XML_ELEMENT_NODE
        · rw [if_pos hty] at hr ⊢
          simp only [visitElementStrict] at hr
          split at hr
          · simp at hr
          · exact hr
        · rw [if_neg hty] at hr ⊢
          exact hr
      split at h
      · simp at h
      · rename_i t hb
        split at h
        · simp only [Option.some.injEq] at h
          simp only [traverseLoop, hbody _ hb, h]
        · simp at h
      · rename_i t hb
        cases hc : traverseLoopStrict children t with
        | none => simp [hc] at h
        | some t2 =>
          simp only [hc] at h
          simp only [traverseLoop, hbody _ hb,
            traverseLoop_of_strict children t t2 hc,
            traverseLoop_of_strict next t2 s1 h]

theorem visitElement_other (ty : Nat) (name : String) (props : List (String × String))
    (children next : xmlNode) (s : State) (h1 : name ≠ "devices") (h2 : name ≠ "usbdev") :
    ∃ s1, visitElement (xmlNode.node ty name props children next) s = some (false, s1) ∧
      samePool s s1 := by
  by_cases hd : name = "default"
  · subst hd
    obtain ⟨s1, hv, e1, e2, e3, e4, _⟩ := visitElement_default ty props children next s
    exact ⟨s1, hv, e1, e2, e3, e4⟩
  · refine ⟨s, ?_, rfl, rfl, rfl, rfl⟩
    simp only [visitElement, if_neg hd, if_neg h1, if_neg h2]

theorem visitElementStrict_other (ty : Nat) (name : String) (props : List (String × String))
    (children next : xmlNode) (s : State) (h2 : name ≠ "usbdev") :
    visitElementStrict (xmlNode.node ty name props children next) s =
      visitElement (xmlNode.node ty name props children next) s := by
  simp only [visitElementStrict, h2, false_and, if_false]

theorem registryIntact_samePool (s s1 : State) (h : samePool s s1) :
    registryIntact s1 = registryIntact s := by
  obtain ⟨h1, h2, h3, _⟩ := h
  unfold registryIntact
  rw [h1, h2, h3]

theorem holds_samePool (s s1 : State) (ds : List gpsdevice) (room : Nat)
    (h : samePool s s1) (hh : holds s ds room) : holds s1 ds room := by
  obtain ⟨h1, h2, h3, _⟩ := h
  obtain ⟨g1, g2, g3⟩ := hh
  exact ⟨h1.trans g1, h3.trans g2, h2.trans g3⟩

theorem samePool_trans (s s1 s2 : State) (h1 : samePool s s1) (h2 : samePool s1 s2) :
    samePool s s2 :=
  ⟨h2.1.trans h1.1, h2.2.1.trans h1.2.1, h2.2.2.1.trans h1.2.2.1, h2.2.2.2.trans h1.2.2.2⟩

theorem strict_below :
    ∀ (c : xmlNode) (s : State), wellPlaced Place.below c = true →
      registryIntact s = true →
      ∃ s1, traverseLoopStrict c s = some s1 ∧ samePool s s1
  | xmlNode.null, s, _, hs => ⟨s, by simp [traverseLoopStrict, hs], rfl, rfl, rfl, rfl⟩
  | xmlNode.node ty name props children next, s, h, hs => by
    simp only [wellPlaced, Bool.and_eq_true] at h
    obtain ⟨hnode, hnext⟩ := h
    by_cases hD : ty = XML_ELEMENT_NODE ∧ name = "devices"
    · rw [if_pos hD] at hnode
      simp at hnode
    · rw [if_neg hD] at hnode
      by_cases hU : ty = XML_ELEMENT_NODE ∧ name = "usbdev"
      · rw [if_pos hU] at hnode
        simp at hnode
      · rw [if_neg hU] at hnode
        simp only [if_false, reduceCtorEq] at hnode
        have hbody : ∃ s1, (if ty = XML_ELEMENT_NODE then
              visitElementStrict (xmlNode.node ty name props children next) s
            else some (false, s)) = some (false, s1) ∧ samePool s s1 := by
          by_cases hty : ty = XML_ELEMENT_NODE
          · have hn1 : name ≠ "devices" := fun hn => hD ⟨hty, hn⟩
            have hn2 : name ≠ "usbdev" := fun hn => hU ⟨hty, hn⟩
            obtain ⟨s1, hv, hsame⟩ := visitElement_other ty name props children next s hn1 hn2
            exact ⟨s1, by rw [if_pos hty, visitElementStrict_other _ _ _ _ _ _ hn2, hv], hsame⟩
          · exact ⟨s, by rw [if_neg hty], rfl, rfl, rfl, rfl⟩
        obtain ⟨s1, hb, hsame1⟩ := hbody
        have hs1 : registryIntact s1 = true := by
          rw [registryIntact_samePool s s1 hsame1]; exact hs
        obtain ⟨s2, hc, hsame2⟩ := strict_below children s1 hnode hs1
        have hs2 : registryIntact s2 = true := by
          rw [registryIntact_samePool s1 s2 hsame2]; exact hs1
        obtain ⟨s3, hn, hsame3⟩ := strict_below next s2 hnext hs2
        refine ⟨s3, ?_, samePool_trans s s2 s3 (samePool_trans s s1 s2 hsame1 hsame2) hsame3⟩
        simp only [traverseLoopStrict, hs, hb, hc, hn]
        simp

theorem device_add_holds (ty : Nat) (name : String) (props : List (String × String))
    (children next : xmlNode) (s : State) (ds : List gpsdevice) (room : Nat)
    (h : holds s ds (room + 1)) :
    ∃ ret s1, __device_add (xmlNode.node ty name props children next) s = some (ret, s1) ∧
      (holds s1 ds (room + 1) ∨ ∃ d, holds s1 (ds ++ [d]) room) := by
  obtain ⟨hd, hl, hn⟩ := h
  by_cases hins : hasIds (xmlNode.node ty name props children next) ∧
      s.heap_exhausted = false
  · obtain ⟨hids, hheap⟩ := hins
    have hadd := device_add_poolOf (xmlNode.node ty name props children next) s ds room
      hids hheap hd hl
    refine ⟨0, _, hadd, Or.inr ⟨deviceOf s (xmlNode.node ty name props children next), ?_⟩⟩
    refine ⟨rfl, rfl, ?_⟩
    show s.nr_devices = (ds ++ [_]).length + room
    rw [hn, List.length_append, List.length_singleton]
    omega
  · refine ⟨-EINVAL, s, ?_, Or.inl ⟨hd, hl, hn⟩⟩
    unfold __device_add
    cases hv : xmlGetProp (xmlNode.node ty name props children next) "vid" with
    | none => simp
    | some vid =>
      cases hp : xmlGetProp (xmlNode.node ty name props children next) "pid" with
      | none => simp
      | some pid =>
        have hheap : s.heap_exhausted = true := by
          by_contra hx
          have hx1 : s.heap_exhausted = false := by simpa using hx
          exact hins ⟨⟨by rw [hv]; rfl, by rw [hp]; rfl⟩, hx1⟩
        simp [hheap]

theorem strict_child :
    ∀ (c : xmlNode) (s : State) (ds : List gpsdevice) (room : Nat),
      wellPlaced Place.childOfDevices c = true → holds s ds room →
      countElements c ≤ room →
      ∃ s1 ds1 room1, traverseLoopStrict c s = some s1 ∧ holds s1 ds1 room1
  | xmlNode.null, s, ds, room, _, hh, _ =>
    ⟨s, ds, room, by simp [traverseLoopStrict, registryIntact_of_holds s ds room hh], hh⟩
  | xmlNode.node ty name props children next, s, ds, room, h, hh, hcount => by
    have hs := registryIntact_of_holds s ds room hh
    simp only [wellPlaced, Bool.and_eq_true] at h
    obtain ⟨hnode, hnext⟩ := h
    by_cases hD : ty = XML_ELEMENT_NODE ∧ name = "devices"
    · rw [if_pos hD] at hnode
      simp at hnode
    · rw [if_neg hD] at hnode
      by_cases hU : ty = XML_ELEMENT_NODE ∧ name = "usbdev"
      · rw [if_pos hU] at hnode
        simp only [decide_True, Bool.true_and] at hnode
        obtain ⟨hty, hname⟩ := hU
        subst hname
        simp only [countElements, if_pos hty] at hcount
        obtain ⟨room0, hroom⟩ : ∃ room0, room = room0 + 1 := ⟨room - 1, by omega⟩
        subst hroom
        have hrange : insertionInRange s = true := by
          unfold insertionInRange
          rw [hh.1]
          simp only [decide_eq_true_eq]
          rw [hh.2.1, hh.2.2]
          omega
        obtain ⟨ret, s1, hadd, hafter⟩ :=
          device_add_holds ty "usbdev" props children next s ds room0 hh
        have hvisit : visitElementStrict (xmlNode.node ty "usbdev" props children next) s =
            some (false, s1) := by
          have h1 : ¬ ("usbdev" = "default") := by decide
          have h2 : ¬ ("usbdev" = "devices") := by decide
          simp only [visitElementStrict, hrange, Bool.true_eq_false, and_false, if_false,
            visitElement, if_neg h1, if_neg h2, if_true, hadd]
        rcases hafter with hsame | ⟨d, hins⟩
        · have hs1 := registryIntact_of_holds s1 ds (room0 + 1) hsame
          obtain ⟨s2, hc, hsame2⟩ := strict_below children s1 hnode hs1
          have hh2 := holds_samePool s1 s2 ds (room0 + 1) hsame2 hsame
          obtain ⟨s3, ds3, room3, hn, hh3⟩ :=
            strict_child next s2 ds (room0 + 1) hnext hh2 (by omega)
          refine ⟨s3, ds3, room3, ?_, hh3⟩
          simp only [traverseLoopStrict, hs, if_pos hty, hvisit, hc, hn]
          simp
        · have hs1 := registryIntact_of_holds s1 (ds ++ [d]) room0 hins
          obtain ⟨s2, hc, hsame2⟩ := strict_below children s1 hnode hs1
          have hh2 := holds_samePool s1 s2 (ds ++ [d]) room0 hsame2 hins
          obtain ⟨s3, ds3, room3, hn, hh3⟩ :=
            strict_child next s2 (ds ++ [d]) room0 hnext hh2 (by omega)
          refine ⟨s3, ds3, room3, ?_, hh3⟩
          simp only [traverseLoopStrict, hs, if_pos hty, hvisit, hc, hn]
          simp
      · rw [if_neg hU] at hnode
        simp only [if_false, reduceCtorEq] at hnode
        have hbody : ∃ s1, (if ty = XML_ELEMENT_NODE then
              visitElementStrict (xmlNode.node ty name props children next) s
            else some (false, s)) = some (false, s1) ∧ samePool s s1 := by
          by_cases hty : ty = XML_ELEMENT_NODE
          · have hn1 : name ≠ "devices" := fun hn => hD ⟨hty, hn⟩
            have hn2 : name ≠ "usbdev" := fun hn => hU ⟨hty, hn⟩
            obtain ⟨s1, hv, hsame⟩ := visitElement_other ty name props children next s hn1 hn2
            exact ⟨s1, by rw [if_pos hty, visitElementStrict_other _ _ _ _ _ _ hn2, hv], hsame⟩
          · exact ⟨s, by rw [if_neg hty], rfl, rfl, rfl, rfl⟩
        obtain ⟨s1, hb, hsame1⟩ := hbody
        have hh1 := holds_samePool s s1 ds room hsame1 hh
        have hs1 := registryIntact_of_holds s1 ds room hh1
        obtain ⟨s2, hc, hsame2⟩ := strict_below children s1 hnode hs1
        have hh2 := holds_samePool s1 s2 ds room hsame2 hh1
        have hcount2 : countElements next ≤ room := by
          simp only [countElements] at hcount
          omega
        obtain ⟨s3, ds3, room3, hn, hh3⟩ := strict_child next s2 ds room hnext hh2 hcount2
        refine ⟨s3, ds3, room3, ?_, hh3⟩
        simp only [traverseLoopStrict, hs, hb, hc, hn]
        simp

theorem create_pool_safe (n : Int) (s : State) (hs : poolSafe s) :
    ∃ ret s1, __device_create_pool n s = some (ret, s1) ∧
      ((ret < 0 ∧ poolSafe s1) ∨ (ret = 0 ∧ holds s1 [] n.toNat)) := by
  by_cases hn : 0 ≥ n
  · refine ⟨-EINVAL, s, ?_, Or.inl ⟨by decide, hs⟩⟩
    simp only [__device_create_pool, if_pos hn]
  · have hrel : ∃ s2, __device_release_pool s = some s2 ∧ s2.last ≤ s2.nr_devices ∧
        s2.heap_exhausted = s.heap_exhausted := by
      rcases hs with ⟨hd, hl⟩ | ⟨ds, room, hd, _, _⟩
      · exact ⟨s, by simp only [__device_release_pool, hd], hl, rfl⟩
      · have hmem : none ∈ poolOf ds room := by simp [poolOf]
        refine ⟨{ s with devices := PoolPtr.freed, nr_devices := 0, last := 0 }, ?_,
          Nat.le_refl _, rfl⟩
        simp only [__device_release_pool, hd, releaseEntries_of_mem_none _ hmem]
    obtain ⟨s2, h2, hl2, hh2⟩ := hrel
    by_cases hx : s2.heap_exhausted = true
    · refine ⟨-ENOMEM, { s2 with devices := PoolPtr.null }, ?_,
        Or.inl ⟨by decide, Or.inl ⟨rfl, hl2⟩⟩⟩
      simp only [__device_create_pool, if_neg hn, h2, hx, if_true]
    · refine ⟨0, { s2 with devices := PoolPtr.live (List.replicate (n.toNat + 1) none),
                           nr_devices := n.toNat, last := 0 }, ?_,
        Or.inr ⟨rfl, rfl, rfl, by simp⟩⟩
      simp only [__device_create_pool, if_neg hn, h2, hx]
      simp

theorem poolSafe_samePool (s s1 : State) (h : samePool s s1) (hs : poolSafe s) :
    poolSafe s1 := by
  rcases hs with ⟨hd, hl⟩ | ⟨ds, room, hh⟩
  · exact Or.inl ⟨h.1.trans hd, by rw [h.2.2.1, h.2.1]; exact hl⟩
  · exact Or.inr ⟨ds, room, holds_samePool s s1 ds room h hh⟩

theorem strict_outside :
    ∀ (c : xmlNode) (s : State), wellPlaced Place.outside c = true → poolSafe s →
      ∃ s1, traverseLoopStrict c s = some s1 ∧ poolSafe s1
  | xmlNode.null, s, _, hs =>
    ⟨s, by simp [traverseLoopStrict, registryIntact_of_poolSafe s hs], hs⟩
  | xmlNode.node ty name props children next, s, h, hs => by
    have hint := registryIntact_of_poolSafe s hs
    simp only [wellPlaced, Bool.and_eq_true] at h
    obtain ⟨hnode, hnext⟩ := h
    by_cases hD : ty = XML_ELEMENT_NODE ∧ name = "devices"
    · rw [if_pos hD] at hnode
      simp only [decide_True, Bool.true_and] at hnode
      obtain ⟨hty, hname⟩ := hD
      subst hname
      obtain ⟨ret, s1, hc, hcase⟩ := create_pool_safe (countElements children : Int) s hs
      have h1 : ¬ ("devices" = "default") := by decide
      have h2 : ¬ ("devices" = "usbdev") := by decide
      have hvisit : visitElementStrict (xmlNode.node ty "devices" props children next) s =
          some (decide (0 > ret), s1) := by
        simp only [visitElementStrict, h2, false_and, if_false, visitElement, if_neg h1,
          if_true, xmlChildElementCount, hc]
      rcases hcase with ⟨hneg, hsafe1⟩ | ⟨hzero, hh1⟩
      · have hbrk : decide (0 > ret) = true := by simpa using hneg
        rw [hbrk] at hvisit
        refine ⟨s1, ?_, hsafe1⟩
        simp only [traverseLoopStrict, hint, if_pos hty, hvisit,
          registryIntact_of_poolSafe s1 hsafe1]
        simp
      · have hbrk : decide (0 > ret) = false := by rw [hzero]; decide
        rw [hbrk] at hvisit
        simp only [Int.toNat_ofNat] at hh1
        obtain ⟨s2, ds2, room2, hkids, hh2⟩ :=
          strict_child children s1 [] (countElements children) hnode hh1 (Nat.le_refl _)
        obtain ⟨s3, hn, hsafe3⟩ := strict_outside next s2 hnext (Or.inr ⟨ds2, room2, hh2⟩)
        refine ⟨s3, ?_, hsafe3⟩
        simp only [traverseLoopStrict, hint, if_pos hty, hvisit, hkids, hn]
        simp
    · rw [if_neg hD] at hnode
      by_cases hU : ty = XML_ELEMENT_NODE ∧ name = "usbdev"
      · rw [if_pos hU] at hnode
        simp at hnode
      · rw [if_neg hU] at hnode
        simp only [if_true] at hnode
        have hbody : ∃ s1, (if ty = XML_ELEMENT_NODE then
              visitElementStrict (xmlNode.node ty name props children next) s
            else some (false, s)) = some (false, s1) ∧ samePool s s1 := by
          by_cases hty : ty = XML_ELEMENT_NODE
          · have hn1 : name ≠ "devices" := fun hn => hD ⟨hty, hn⟩
            have hn2 : name ≠ "usbdev" := fun hn => hU ⟨hty, hn⟩
            obtain ⟨s1, hv, hsame⟩ := visitElement_other ty name props children next s hn1 hn2
            exact ⟨s1, by rw [if_pos hty, visitElementStrict_other _ _ _ _ _ _ hn2, hv], hsame⟩
          · exact ⟨s, by rw [if_neg hty], rfl, rfl, rfl, rfl⟩
        obtain ⟨s1, hb, hsame1⟩ := hbody
        have hsafe1 := poolSafe_samePool s s1 hsame1 hs
        obtain ⟨s2, hc, hsafe2⟩ := strict_outside children s1 hnode hsafe1
        obtain ⟨s3, hn, hsafe3⟩ := strict_outside next s2 hnext hsafe2
        refine ⟨s3, ?_, hsafe3⟩
        simp only [traverseLoopStrict, hint, hb, hc, hn]
        simp

/-- C18: on a tree in which every `usbdev` element is an immediate child of a `devices`
element and no `devices` element lies below a `devices` element, started with the pool
absent or holding records under an intact terminator, the traversal has a defined result
and passes the watch of `traverseLoopStrict`: every `usbdev` element is reached with a
pool present and the cursor strictly below the capacity, and at every round the cursor is
at most the capacity and the slot at index capacity is `NULL`.  At the end
`device_traverse_trees` has returned 0, the cursor is at most the capacity, the
terminating slot is `NULL`, and `gps_lookup` has a result for every pair. -/
theorem wellPlaced_traversal_safe (ty : Nat) (name : String) (props : List (String × String))
    (children next : xmlNode) (s : State)
    (hwf : wellPlaced Place.outside (xmlNode.node ty name props children next) = true)
    (hs : poolSafe s) :
    ∃ s1, traverseLoopStrict (xmlNode.node ty name props children next) s = some s1 ∧
      device_traverse_trees (xmlNode.node ty name props children next) s = some (0, s1) ∧
      s1.last ≤ s1.nr_devices ∧
      ∀ slots, s1.devices = PoolPtr.live slots →
        slots.get? s1.nr_devices = some none ∧
        ∀ vid pid, ∃ found, gps_lookup vid pid s1 = some found := by
  obtain ⟨s1, hstrict, hsafe⟩ := strict_outside _ s hwf hs
  have hplain := traverseLoop_of_strict _ s s1 hstrict
  refine ⟨s1, hstrict, by simp only [device_traverse_trees, hplain], ?_, ?_⟩
  · rcases hsafe with ⟨_, hl⟩ | ⟨ds, room, _, hl, hn⟩
    · exact hl
    · rw [hl, hn]
      exact Nat.le_add_right _ _
  · intro slots hlive
    rcases hsafe with ⟨hd, _⟩ | ⟨ds, room, hd, hl, hn⟩
    · rw [hd] at hlive
      simp at hlive
    · rw [hd] at hlive
      simp only [PoolPtr.live.injEq] at hlive
      subst hlive
      refine ⟨by rw [hn]; exact poolOf_terminator ds room, ?_⟩
      intro vid pid
      exact ⟨_, by unfold gps_lookup; rw [hd]; exact lookupLoop_poolOf vid pid room ds⟩

theorem wellPlaced_traversal_safe_witness :
    wellPlaced Place.outside sampleDocument = true ∧
    wellPlaced Place.outside nestedUsbdevTree = false ∧
    traverseLoopStrict nestedUsbdevTree initState = none ∧
    ∃ s1, traverseLoopStrict sampleDocument initState = some s1 ∧
      device_traverse_trees sampleDocument initState = some (0, s1) ∧
      s1.last ≤ s1.nr_devices ∧
      ∀ slots, s1.devices = PoolPtr.live slots →
        slots.get? s1.nr_devices = some none ∧
        ∀ vid pid, ∃ found, gps_lookup vid pid s1 = some found :=
  ⟨by decide, by decide, by decide,
   wellPlaced_traversal_safe XML_ELEMENT_NODE "odroid-gps" [] _ xmlNode.null initState
     (by decide) (Or.inl ⟨rfl, Nat.le_refl _⟩)⟩

end OdroidGps
